import Mathlib

/-
Verification of the questioner-maker repository.

The repository is a browser UI (TypeScript/React) whose core logic is:
  * CSV export/import helpers (src/unnamed/part_000: parseCsvLineRobust,
    generateCsvString),
  * a streaming response aggregator with a "Pregunta" live preview
    (src/App.tsx, setLiveStreamContentCallback),
  * a bounded JSON-correction retry loop around the Gemini call
    (src/services/geminiService.ts, generateQuestionsFromGemini),
  * a sequential request queue with bounded overall retries
    (src/App.tsx, processQueue).

JavaScript strings are modelled as `List Char` (abbreviated `Str`), so
every character-scanning loop of the source becomes a structural
recursion.  External effects (the Gemini SDK, JSON.parse which is a host
builtin, Date.now/Math.random id entropy) are supplied by explicit
environment records; everything the repository itself computes is
translated directly from the source.
-/

set_option maxRecDepth 4000

abbrev Str := List Char

/-- JavaScript whitespace test used by String.prototype.trim (the
characters relevant to this code base). -/
def isJsWs (c : Char) : Bool :=
  c == ' ' || c == '\t' || c == '\n' || c == '\r' || c == '\x0b' || c == '\x0c'

/-- Model of JavaScript `s.trim()`: strip leading and trailing whitespace. -/
def jsTrim (s : Str) : Str :=
  ((s.dropWhile isJsWs).reverse.dropWhile isJsWs).reverse

/-- Model of JavaScript `s.substring(a, b)`: indices are clamped to the
string length and swapped when `a > b`. -/
def jsSubstring (s : Str) (a b : Nat) : Str :=
  let a2 := min a s.length
  let b2 := min b s.length
  (s.drop (min a2 b2)).take (max a2 b2 - min a2 b2)

/-- The QuestionData record of src/types.ts.  `Pregunta` and
`Opción correcta 1` are required strings; the remaining fields are
optional (`none` models a missing/undefined field). -/
structure QuestionData where
  id : Str
  Pregunta : Str
  opcionCorrecta1 : Str
  opcionCorrecta2 : Option Str
  opcionCorrecta3 : Option Str
  opcionIncorrecta1 : Option Str
  opcionIncorrecta2 : Option Str
  opcionIncorrecta3 : Option Str
  Explicacion : Option Str
deriving DecidableEq

/-- CSV_HEADERS from src/types.ts. -/
def CSV_HEADERS : List Str :=
  [("Pregunta".data), ("Opción correcta 1".data), ("Opción Correcta 2".data),
   ("Opción Correcta 3".data), ("Opción Incorrecta 1".data),
   ("Opción Incorrecta 2".data), ("Opción Incorrecta 3".data),
   ("Explicación".data)]

/-- `escapeCsvField` from generateCsvString (src/unnamed/part_000 lines
41-52): null/undefined/empty fields become empty, a field containing a
comma, double quote or newline is wrapped in double quotes with inner
quotes doubled, any other field is returned unchanged. -/
def doubleQuotes : Str → Str
  | [] => []
  | c :: rest => if c = '"' then '"' :: '"' :: doubleQuotes rest else c :: doubleQuotes rest

def escapeCsvField (fieldValue : Option Str) : Str :=
  match fieldValue with
  | none => []
  | some s =>
    if s = [] then []
    else if (',' ∈ s ∨ '"' ∈ s ∨ '\n' ∈ s) then '"' :: (doubleQuotes s ++ ['"'])
    else s

/-- The eight field values of a question in CSV column order, as read by
generateCsvString (src/unnamed/part_000 lines 55-64). -/
def questionFields (q : QuestionData) : List (Option Str) :=
  [some q.Pregunta, some q.opcionCorrecta1, q.opcionCorrecta2, q.opcionCorrecta3,
   q.opcionIncorrecta1, q.opcionIncorrecta2, q.opcionIncorrecta3, q.Explicacion]

/-- One data row of the CSV: the eight escaped fields joined by commas. -/
def csvDataRow (q : QuestionData) : Str :=
  List.intercalate [','] ((questionFields q).map escapeCsvField)

/-- The header row: CSV_HEADERS joined by commas. -/
def csvHeaderRow : Str := List.intercalate [','] CSV_HEADERS

/-- generateCsvString (src/unnamed/part_000 lines 40-67):
`[headerRow, ...dataRows].join('\n')`. -/
def generateCsvString (questions : List QuestionData) : Str :=
  List.intercalate ['\n'] (csvHeaderRow :: questions.map csvDataRow)

/-- parseCsvLineRobust, phase 1 (src/unnamed/part_000 lines 9-27): the
character loop splitting a line into raw fields.  `cur` is the current
field accumulator and `inQ` the inQuotes flag. -/
def scanCsv : Str → Str → Bool → List Str
  | [], cur, _ => [cur]
  | c :: rest, cur, inQ =>
    if c = '"' then
      if inQ then
        if rest.head? = some '"' then scanCsv rest.tail (cur ++ ['"']) true
        else scanCsv rest cur false
      else scanCsv rest cur true
    else if c = ',' then
      if inQ then scanCsv rest (cur ++ [',']) true
      else cur :: scanCsv rest [] false
    else scanCsv rest (cur ++ [c]) inQ
termination_by l _ _ => l.length
decreasing_by all_goals simp_wf <;> omega

/-- The `replace(/""/g, '"')` step of parseCsvLineRobust: one
left-to-right pass replacing each non-overlapping `""` pair by `"`. -/
def unescapeDoubleQuotes : Str → Str
  | [] => []
  | '"' :: '"' :: rest => '"' :: unescapeDoubleQuotes rest
  | c :: rest => c :: unescapeDoubleQuotes rest

/-- parseCsvLineRobust, phase 2 (src/unnamed/part_000 lines 30-36): a raw
field that starts and ends with a double quote loses its outer quotes and
has inner doubled quotes collapsed; any other field is trimmed. -/
def cleanCsvField (field : Str) : Str :=
  if field.head? = some '"' ∧ field.getLast? = some '"' then
    unescapeDoubleQuotes (jsSubstring field 1 (field.length - 1))
  else jsTrim field

/-- parseCsvLineRobust (src/unnamed/part_000 lines 4-37). -/
def parseCsvLineRobust (line : Str) : List Str :=
  (scanCsv line [] false).map cleanCsvField

/-- Escaping rule as worded by claim C7, written independently of the
source: a field is wrapped in double quotes, with inner double quotes
doubled, exactly when it contains a comma, double quote, or newline;
undefined, null, or empty fields become empty. -/
def specEscapeField : Option Str → Str
  | none => []
  | some s =>
    if s = [] then []
    else if (∃ c ∈ s, c = ',' ∨ c = '"' ∨ c = '\n') then
      '"' :: (s.flatMap (fun c => if c = '"' then ['"', '"'] else [c]) ++ ['"'])
    else s

/-- CSV layout as worded by claim C7: the CSV_HEADERS joined by commas as
the first line, followed by one data row per question in list order, each
row holding the eight fields escaped by the stated rule. -/
def specCsvString (questions : List QuestionData) : Str :=
  List.intercalate ['\n']
    (List.intercalate [','] CSV_HEADERS ::
      questions.map (fun q => List.intercalate [','] ((questionFields q).map specEscapeField)))

/-- The hypotheses claim C9 places on a single field value: no newline,
already trimmed, and not both starting and ending with a double quote. -/
def goodFieldValue : Option Str → Prop
  | none => True
  | some v => '\n' ∉ v ∧ jsTrim v = v ∧ ¬(v.head? = some '"' ∧ v.getLast? = some '"')

instance (f : Option Str) : Decidable (goodFieldValue f) := by
  cases f <;> unfold goodFieldValue <;> infer_instance

/-- MAX_JSON_CORRECTION_ATTEMPTS from src/unnamed/part_003. -/
def MAX_JSON_CORRECTION_ATTEMPTS : Nat := 5

/-- MAX_OVERALL_REQUEST_ATTEMPTS from src/unnamed/part_003. -/
def MAX_OVERALL_REQUEST_ATTEMPTS : Nat := 2

/-- Decimal rendering of a natural number (JS template `${i}`). -/
def natStr (n : Nat) : Str := (Nat.repr n).data

/-- JSON values as produced by the host JSON.parse. -/
inductive Json where
  | null : Json
  | bool : Bool → Json
  | num : Int → Json
  | str : Str → Json
  | arr : List Json → Json
  | obj : List (Str × Json) → Json

/-- Property lookup on a parsed JSON value.  JSON.parse keeps the last
of duplicate keys, and property access on a non-object yields undefined
(`none`). -/
def Json.getField : Json → Str → Option Json
  | .obj fields, k => (fields.reverse.find? (fun kv => decide (kv.1 = k))).map (fun kv => kv.2)
  | _, _ => none

/-- JS `typeof` on a JSON.parse result. -/
def jsTypeof : Json → Str
  | .null => ("object".data)
  | .bool _ => ("boolean".data)
  | .num _ => ("number".data)
  | .str _ => ("string".data)
  | .arr _ => ("object".data)
  | .obj _ => ("object".data)

/-- JS truthiness of a JSON value (used by the `itemPregunta ?` template). -/
def jsTruthy : Json → Bool
  | .null => false
  | .bool b => b
  | .num n => decide (n ≠ 0)
  | .str s => decide (s ≠ [])
  | .arr _ => true
  | .obj _ => true

mutual
/-- Model of JS `String(x)` on a JSON value (a top-level null element of
an array join becomes empty, as in Array.prototype.toString). -/
def jsToString : Json → Str
  | .null => ("null".data)
  | .bool true => ("true".data)
  | .bool false => ("false".data)
  | .num n => (n.repr.data)
  | .str s => s
  | .arr xs => List.intercalate [','] (jsToStringList xs)
  | .obj _ => ("[object Object]".data)
def jsToStringList : List Json → List Str
  | [] => []
  | x :: xs =>
    (match x with
     | .null => []
     | v => jsToString v) :: jsToStringList xs
end

/-- The `typeof item === 'object'` test combined with `item !== null`
(arrays also have typeof 'object'). -/
def isJsObject : Json → Bool
  | .obj _ => true
  | .arr _ => true
  | _ => false

def fenceMarker : Str := ("```".data)

/-- Model of the markdown fence stripping of geminiService.ts lines
377-383: the regex `^(three backticks)(json)?\s*\n?(.*?)\n?\s*(three
backticks)$` with the /s flag, applied to the trimmed output; the
stripped content replaces the output only when the captured group is
non-empty.  The lazy middle group makes the captured content exactly the
region between the fence prefix and the final fence, with surrounding
whitespace consumed by the anchored whitespace parts; `match[1].trim()`
is the final `jsTrim`. -/
def stripFence (t : Str) : Str :=
  if t.take 3 = fenceMarker then
    let t1 := t.drop 3
    let t2 := if t1.take 4 = ("json".data) then t1.drop 4 else t1
    let body := t2.dropWhile isJsWs
    if 3 ≤ body.length ∧ body.drop (body.length - 3) = fenceMarker then
      let content := jsTrim (body.take (body.length - 3))
      if content ≠ [] then content else t
    else t
  else t

def keyPregunta : Str := ("Pregunta".data)
def keyOpcionCorrecta1 : Str := ("Opción correcta 1".data)
def keyOpcionCorrecta2 : Str := ("Opción Correcta 2".data)
def keyOpcionCorrecta3 : Str := ("Opción Correcta 3".data)
def keyOpcionIncorrecta1 : Str := ("Opción Incorrecta 1".data)
def keyOpcionIncorrecta2 : Str := ("Opción Incorrecta 2".data)
def keyOpcionIncorrecta3 : Str := ("Opción Incorrecta 3".data)
def keyExplicacion : Str := ("Explicación".data)
def keyId : Str := ("id".data)

/-- Prefix of every freshly generated question id
(`gen-${Date.now()}-${Math.random().toString(36).substring(2, 9)}`,
geminiService.ts line 418); the entropy after the prefix is supplied by
the environment. -/
def genIdPrefix : Str := ("gen-".data)

/-- Error message of geminiService.ts line 394. -/
def notAnObjectMsg (i : Nat) : Str :=
  ("Item ".data) ++ natStr i ++ (" en el array JSON no es un objeto.".data)

/-- Error message of geminiService.ts line 402.  When the Pregunta value
is truthy but not a string the real code raises a TypeError while
building this template (numbers have no .substring); both paths throw,
and the model renders that corner with jsToString. -/
def requiredFieldsMsg (i : Nat) (preguntaVal : Option Json) : Str :=
  ("Item ".data) ++ natStr i ++ (" (".data) ++
    (match preguntaVal with
     | some v => if jsTruthy v then jsSubstring (jsToString v) 0 20 ++ ("...".data)
                 else ("Pregunta Vacía".data)
     | none => ("Pregunta Vacía".data)) ++
  (") en el array JSON no tiene los campos requeridos \x27Pregunta\x27 y \x27Opción correcta 1\x27 como strings no vacíos.".data)

/-- Error message of geminiService.ts line 388. -/
def notAnArrayMsg (parsed : Json) : Str :=
  ("La respuesta JSON no es un array. Recibido: ".data) ++ jsTypeof parsed

/-- Error message of geminiService.ts line 439. -/
def noValidObjectsMsg : Str :=
  ("El array JSON fue recibido, pero ningún objeto cumplió la estructura esperada para las preguntas.".data)

/-- Error message of geminiService.ts line 442. -/
def zeroQuestionsMsg (jsonStr : Str) : Str :=
  ("Gemini no generó ninguna pregunta válida en el JSON. JSON parseado resultó en 0 preguntas. Contenido parseado: ".data)
  ++ jsSubstring jsonStr 0 200 ++ ("...".data)

/-- Error message of geminiService.ts line 366. -/
def emptyResponseMsg : Str := ("Gemini devolvió una respuesta JSON vacía.".data)

/-- Fallback error text of geminiService.ts line 353. -/
def defaultParseErr : Str := ("Error de parseo desconocido".data)

/-- Environment closing over the external effects of
generateQuestionsFromGemini: the host JSON.parse, the Gemini correction
request (`ai.models.generateContent`, returning the response text or a
thrown error message), and the Date.now/Math.random entropy of fresh
question ids (indexed by item position). -/
structure GenEnv where
  jsonParse : Str → Except Str Json
  modelReply : Str → Except Str Str
  genSuffix : Nat → Str

/-- Conversion of one optional question field (geminiService.ts lines
428-432): null or undefined stays undefined, anything else is
String()-converted. -/
def optionalField (item : Json) (k : Str) : Option Str :=
  match item.getField k with
  | none => none
  | some .null => none
  | some v => some (jsToString v)

/-- Validation and conversion of one item of the parsed JSON array
(geminiService.ts lines 392-435). -/
def validateItem (env : GenEnv) (i : Nat) (item : Json) : Except Str QuestionData :=
  if ¬(isJsObject item = true) then .error (notAnObjectMsg i)
  else
    match item.getField keyPregunta, item.getField keyOpcionCorrecta1 with
    | some (.str p), some (.str c1) =>
      if jsTrim p = [] ∨ jsTrim c1 = [] then .error (requiredFieldsMsg i (some (.str p)))
      else
        let explicacion : Str :=
          match item.getField keyExplicacion with
          | none => []
          | some .null => []
          | some v => jsToString v
        let finalId : Str :=
          match item.getField keyId with
          | some (.str s) => if ¬(jsTrim s = []) then s else genIdPrefix ++ env.genSuffix i
          | _ => genIdPrefix ++ env.genSuffix i
        .ok (QuestionData.mk finalId p c1
          (optionalField item keyOpcionCorrecta2) (optionalField item keyOpcionCorrecta3)
          (optionalField item keyOpcionIncorrecta1) (optionalField item keyOpcionIncorrecta2)
          (optionalField item keyOpcionIncorrecta3) (some explicacion))
    | pv, _ => .error (requiredFieldsMsg i pv)

/-- The `for (const [i, item] of parsedData.entries())` loop
(geminiService.ts line 392): first failure aborts with its error. -/
def validateItems (env : GenEnv) : List Json → Nat → Except Str (List QuestionData)
  | [], _ => .ok []
  | item :: rest, i =>
    match validateItem env i item with
    | .error e => .error e
    | .ok q =>
      match validateItems env rest (i + 1) with
      | .error e => .error e
      | .ok qs => .ok (q :: qs)

def emptyArrayLiteral : Str := ("[]".data)

/-- The try-body of one correction-loop iteration after the raw output is
known to be non-empty (geminiService.ts lines 377-449): trim, strip the
markdown fence, JSON.parse, require an array, validate every item, and
apply the final emptiness checks. -/
def parseAndValidate (env : GenEnv) (raw : Str) : Except Str (List QuestionData) :=
  let jsonStr := stripFence (jsTrim raw)
  match env.jsonParse jsonStr with
  | .error e => .error e
  | .ok parsedData =>
    match parsedData with
    | .arr items =>
      match validateItems env items 0 with
      | .error e => .error e
      | .ok parsedQuestions =>
        if 0 < items.length ∧ parsedQuestions.length = 0 then .error noValidObjectsMsg
        else if parsedQuestions.length = 0 ∧ items.length = 0 ∧
            ¬(jsTrim jsonStr = []) ∧ ¬(jsTrim jsonStr = emptyArrayLiteral) then
          .error (zeroQuestionsMsg jsonStr)
        else .ok parsedQuestions
    | other => .error (notAnArrayMsg other)

/-- The JSON structure sample embedded in the correction prompt
(geminiService.ts lines 202-212). -/
def questionObjectStructureCorrection : Str :=
  ("\x7b\n  \"id\": \"string_or_null (SOLO para preguntas REESCRITAS, usa el ID original. Para preguntas NUEVAS, omite este campo o usa null)\",\n  \"Pregunta\": \"string\",\n  \"Opción correcta 1\": \"string\",\n  \"Opción Correcta 2\": \"string_or_empty_string\", \n  \"Opción Correcta 3\": \"string_or_empty_string\",\n  \"Opción Incorrecta 1\": \"string_or_empty_string\",\n  \"Opción Incorrecta 2\": \"string_or_empty_string\",\n  \"Opción Incorrecta 3\": \"string_or_empty_string\",\n  \"Explicación\": \"string_or_empty_string\" \n\x7d".data)

/-- Text of the correction prompt before the interpolated error details
(geminiService.ts line 213-215). -/
def correctionPromptPart1 : Str :=
  ("Tu tarea anterior era generar un array JSON de preguntas, pero hubo un error en el formato de tu respuesta.\n\nEl error detectado fue: \"".data)

/-- Text of the correction prompt between the error details and the
faulty output (geminiService.ts lines 215-219). -/
def correctionPromptPart2 : Str :=
  ("\"\n\nLa respuesta ANTERIOR que generaste y que necesita CORRECCIÓN es:\n---\n".data)

/-- Text of the correction prompt after the faulty output, including the
embedded question object structure (geminiService.ts lines 221-234). -/
def correctionPromptPart3 : Str :=
  ("\n---\n\nPor favor, corrige ÚNICAMENTE el formato JSON de la respuesta anterior.\nAsegúrate de que la respuesta sea un array JSON VÁLIDO.\nCada objeto en el array DEBE seguir esta estructura:\n".data)
  ++ questionObjectStructureCorrection
  ++ ("\n\nNO generes preguntas nuevas. NO cambies el contenido sustancial de las preguntas si no es estrictamente necesario para corregir el formato JSON.\nVerifica comillas, comas, llaves y corchetes para asegurar que el JSON sea válido.\nSi un campo opcional no se usa, usa una cadena vacía `\"\"`. NO uses `null` para campos de opciones/explicación. Para el campo \"id\", sigue las instrucciones: ID original para reescritas, null u omitido para nuevas.\nLa \x27Explicación\x27 es obligatoria y debe ser una cadena (puede ser `\"\"` si es imposible una explicación).\n\n\nVuelve a generar la respuesta COMPLETA, con el formato JSON corregido. Solo el array JSON.\n".data)

/-- constructJsonCorrectionPrompt (geminiService.ts lines 198-235). -/
def constructJsonCorrectionPrompt (faultyJsonOutput parsingErrorDetails : Str) : Str :=
  correctionPromptPart1 ++ parsingErrorDetails ++ correctionPromptPart2
    ++ faultyJsonOutput ++ correctionPromptPart3

/-- The fetch of the raw output for one loop iteration (geminiService.ts
lines 352-363): the first iteration parses the aggregated stream output,
later iterations re-prompt the model with the correction prompt built
from the faulty output and the last error; a thrown SDK error surfaces as
`Except.error`. -/
def fetchRaw (env : GenEnv) (attempts : Nat) (lastRaw : Str) (lastErr : Option Str) : Except Str Str :=
  if 0 < attempts then
    env.modelReply (constructJsonCorrectionPrompt lastRaw (lastErr.getD defaultParseErr))
  else .ok lastRaw

/-- One iteration of the correction loop (the try/catch body,
geminiService.ts lines 351-455).  `Sum.inl (raw, qs)` is the successful
return; `Sum.inr (raw2, msg)` is a failed iteration carrying the raw
output and error message recorded for the next iteration (after a failed
correction fetch the previous raw output is kept, since the assignment to
lastGeminiRawOutput never ran). -/
def iterStep (env : GenEnv) (attempts : Nat) (lastRaw : Str) (lastErr : Option Str) :
    (Str × List QuestionData) ⊕ (Str × Str) :=
  match fetchRaw env attempts lastRaw lastErr with
  | .error e => .inr (lastRaw, e)
  | .ok raw2 =>
    if jsTrim raw2 = [] then .inr (raw2, emptyResponseMsg)
    else
      match parseAndValidate env raw2 with
      | .ok qs => .inl (raw2, qs)
      | .error m => .inr (raw2, m)

/-- The record returned by a successful generateQuestionsFromGemini
(geminiService.ts line 449). -/
structure GenSuccess where
  rawText : Str
  parsedQuestions : List QuestionData
  jsonCorrectionAttempts : Nat

/-- The final error thrown after all correction attempts fail
(geminiService.ts lines 460-462). -/
def finalErrorMsg (requestPrompt : Str) (lastErr : Option Str) (lastRaw : Str) : Str :=
  ("Fallaron todos los ".data) ++ natStr MAX_JSON_CORRECTION_ATTEMPTS
  ++ (" intentos de corrección de formato JSON para la solicitud \"".data)
  ++ jsSubstring requestPrompt 0 50 ++ ("...\". Último error: ".data)
  ++ lastErr.getD ("Error desconocido después de múltiples intentos.".data)
  ++ (". Respuesta final de Gemini: \"".data) ++ jsSubstring lastRaw 0 300 ++ ("...\"".data)

/-- The `while (jsonCorrectionAttempts < MAX_JSON_CORRECTION_ATTEMPTS)`
loop (geminiService.ts lines 350-458): every failed iteration, including
the empty-response branch, increments the counter exactly once. -/
def geminiLoop (env : GenEnv) (requestPrompt : Str) (attempts : Nat) (lastRaw : Str)
    (lastErr : Option Str) : Except Str GenSuccess :=
  if h : attempts < MAX_JSON_CORRECTION_ATTEMPTS then
    match iterStep env attempts lastRaw lastErr with
    | .inl ok => .ok (GenSuccess.mk ok.1 ok.2 attempts)
    | .inr f => geminiLoop env requestPrompt (attempts + 1) f.1 (some f.2)
  else .error (finalErrorMsg requestPrompt lastErr lastRaw)
termination_by MAX_JSON_CORRECTION_ATTEMPTS - attempts
decreasing_by simp_wf <;> omega

/-- generateQuestionsFromGemini from the point where the stream has been
aggregated into `raw0 = lastGeminiRawOutput` (geminiService.ts line 341;
the aggregation itself is modelled by runStreamChunks below).  A stream
error before aggregation rethrows outside this loop and is not modelled
here. -/
def generateQuestionsFromGemini (env : GenEnv) (requestPrompt raw0 : Str) :
    Except Str GenSuccess :=
  geminiLoop env requestPrompt 0 raw0 none

/-- The (lastGeminiRawOutput, lastJsonErrorForReprompt) pair entering
iteration k, assuming the first k iterations all failed. -/
def loopStateAt (env : GenEnv) (raw0 : Str) : Nat → Str × Option Str
  | 0 => (raw0, none)
  | k + 1 =>
    match iterStep env k (loopStateAt env raw0 k).1 (loopStateAt env raw0 k).2 with
    | .inl _ => loopStateAt env raw0 k
    | .inr f => (f.1, some f.2)

/-- The outcome of iteration k, assuming the first k iterations failed. -/
def attemptOutcome (env : GenEnv) (raw0 : Str) (k : Nat) :
    (Str × List QuestionData) ⊕ (Str × Str) :=
  iterStep env k (loopStateAt env raw0 k).1 (loopStateAt env raw0 k).2

def attemptSucceeds (env : GenEnv) (raw0 : Str) (k : Nat) : Bool :=
  match attemptOutcome env raw0 k with
  | .inl _ => true
  | .inr _ => false

/-- Number of iterations the correction loop executes from a given
counter value (instrumentation of geminiLoop). -/
def geminiLoopIterations (env : GenEnv) (attempts : Nat) (lastRaw : Str)
    (lastErr : Option Str) : Nat :=
  if h : attempts < MAX_JSON_CORRECTION_ATTEMPTS then
    match iterStep env attempts lastRaw lastErr with
    | .inl _ => 1
    | .inr f => 1 + geminiLoopIterations env (attempts + 1) f.1 (some f.2)
  else 0
termination_by MAX_JSON_CORRECTION_ATTEMPTS - attempts
decreasing_by simp_wf <;> omega

/-- The search key of the live preview scanner (App.tsx line 557). -/
def preguntaKeyMarker : Str := ("\"Pregunta\"".data)

/-- `pat` occurs in `s` at position `p`. -/
def occursAt (s pat : Str) (p : Nat) : Prop := (s.drop p).take pat.length = pat

instance (s pat : Str) (p : Nat) : Decidable (occursAt s pat p) := by
  unfold occursAt
  infer_instance

/-- Model of JS `s.lastIndexOf(pat)` (none for -1): the largest position
at which `pat` occurs. -/
def jsLastIndexOf (s pat : Str) : Option Nat :=
  (List.range (s.length + 1)).foldl (fun acc p => if occursAt s pat p then some p else acc) none

/-- The valueStart search of the preview scanner (App.tsx lines 561-569):
skip ':', ' ', newline and tab after the key, return the offset just past
the opening quote, or none when another character or the end intervenes. -/
def scanToQuote : Str → Option Nat
  | [] => none
  | c :: rest =>
    if c = '"' then some 1
    else if ¬(c = ':') ∧ ¬(c = ' ') ∧ ¬(c = '\n') ∧ ¬(c = '\t') then none
    else (scanToQuote rest).map (fun n => n + 1)

/-- The escape-aware value scan of the preview scanner (App.tsx lines
572-588): collect characters into the buffer until an unescaped double
quote; a backslash is kept in the buffer and makes the next character
literal.  Returns the buffer and whether the closing quote was found. -/
def takeJsonValue : Str → Bool → Str × Bool
  | [], _ => ([], false)
  | c :: rest, true =>
    let r := takeJsonValue rest false
    (c :: r.1, r.2)
  | c :: rest, false =>
    if c = '\\' then
      let r := takeJsonValue rest true
      (c :: r.1, r.2)
    else if c = '"' then ([], true)
    else
      let r := takeJsonValue rest false
      (c :: r.1, r.2)

/-- The latest-"Pregunta" extraction of setLiveStreamContentCallback
(App.tsx lines 554-593): find the last occurrence of the key, skip to the
opening quote of its value, scan the value; an unterminated value yields
the partial buffer (lines 589-591). -/
def extractLatestPregunta (streamSoFar : Str) : Str :=
  match jsLastIndexOf streamSoFar preguntaKeyMarker with
  | none => []
  | some p =>
    match scanToQuote (streamSoFar.drop (p + preguntaKeyMarker.length)) with
    | none => []
    | some off =>
      let r := takeJsonValue (streamSoFar.drop (p + preguntaKeyMarker.length + off)) false
      let latest := if r.2 then r.1 else []
      if latest = [] ∧ ¬(r.1 = []) then r.1 else latest

/-- One global single-pass character replacement (JS `replace(/c/g, rep)`). -/
def replaceAllChar (c : Char) (rep : Str) (s : Str) : Str :=
  s.flatMap (fun x => if x = c then rep else [x])

/-- The HTML escaping of the preview (App.tsx lines 604-609). -/
def escapeHtml (s : Str) : Str :=
  replaceAllChar '\'' ("&#039;".data)
    (replaceAllChar '"' ("&quot;".data)
      (replaceAllChar '>' ("&gt;".data)
        (replaceAllChar '<' ("&lt;".data)
          (replaceAllChar '&' ("&amp;".data) s))))

/-- The 70-character truncation of the preview (App.tsx lines 600-602). -/
def truncateForPreview (content : Str) : Str :=
  if 70 < content.length then content.take 67 ++ ("...".data) else content

/-- The preview template of App.tsx line 611. -/
def previewTemplate (escapedDisplayContent : Str) : Str :=
  ("Pregunta [<span class=\"text-blue-400 font-semibold\">".data)
  ++ escapedDisplayContent ++ ("</span>] generada!".data)

/-- The state touched by setLiveStreamContentCallback:
currentRawStreamRef, geminiLiveThought and currentAnimatedPreviewText
(none = cleared). -/
structure StreamState where
  raw : Str
  thought : Str
  preview : Option Str
deriving DecidableEq

/-- setLiveStreamContentCallback (App.tsx lines 546-613): replace or
append the chunk, mirror the raw stream into the live thought, and set
the animated preview whenever a latest "Pregunta" value is found (an
empty extraction leaves the previous preview; timer bookkeeping is not
modelled). -/
def setLiveStreamContentCallback (st : StreamState) (chunk : Str) (replace : Bool) :
    StreamState :=
  let raw := if replace then chunk else st.raw ++ chunk
  let latest := extractLatestPregunta raw
  StreamState.mk raw raw
    (if ¬(latest = []) then some (previewTemplate (escapeHtml (truncateForPreview latest)))
     else st.preview)

/-- The streaming aggregation loop of generateQuestionsFromGemini
(geminiService.ts lines 322-341): reset the live stream, then for each
chunk with non-empty text, append it to the aggregate and feed it to the
callback.  Returns (aggregatedStreamOutput, final UI state). -/
def streamFoldStep (acc : Str × StreamState) (chunkText : Str) : Str × StreamState :=
  if ¬(chunkText = []) then
    (acc.1 ++ chunkText, setLiveStreamContentCallback acc.2 chunkText false)
  else acc

def runStreamChunks (chunks : List Str) (st0 : StreamState) : Str × StreamState :=
  chunks.foldl streamFoldStep ([], setLiveStreamContentCallback st0 [] true)

/-- Iteration count of the valueStart search (one per examined character). -/
def scanToQuoteSteps : Str → Nat
  | [] => 0
  | c :: rest =>
    if c = '"' then 1
    else if ¬(c = ':') ∧ ¬(c = ' ') ∧ ¬(c = '\n') ∧ ¬(c = '\t') then 1
    else 1 + scanToQuoteSteps rest

/-- Iteration count of the value scan (one per examined character). -/
def takeJsonValueSteps : Str → Bool → Nat
  | [], _ => 0
  | _ :: rest, true => 1 + takeJsonValueSteps rest false
  | c :: rest, false =>
    if c = '\\' then 1 + takeJsonValueSteps rest true
    else if c = '"' then 1
    else 1 + takeJsonValueSteps rest false

/-- RequestStatus from src/types.ts. -/
inductive RequestStatus where
  | Pending : RequestStatus
  | Processing : RequestStatus
  | Completed : RequestStatus
  | Error : RequestStatus
deriving DecidableEq

/-- GenerationRequest from src/types.ts (the fields processQueue touches). -/
structure GenerationRequest where
  id : Str
  prompt : Str
  status : RequestStatus
  errorDetails : Option Str
  jsonCorrectionAttempts : Nat
  questionsGeneratedCount : Nat
deriving DecidableEq

/-- The merge of a successful batch into the accumulated questions
(the setGeneratedQuestions updater of App.tsx lines 667-699): existing
questions whose id matches a batch question are replaced in place by the
first such batch question; then the batch is walked in order and a
question is appended unless its id was already processed as a rewrite or
already occurs in the list being built. -/
def mergeQuestions (prev newQs : List QuestionData) : List QuestionData :=
  let processedIdsFromGemini : List Str :=
    (newQs.filter (fun nq => prev.any (fun q => decide (q.id = nq.id)))).map QuestionData.id
  let updatedList : List QuestionData :=
    prev.map (fun q => ((newQs.find? (fun nq => decide (nq.id = q.id))).getD q))
  newQs.foldl
    (fun acc nq =>
      if nq.id ∈ processedIdsFromGemini then acc
      else if acc.any (fun uq => decide (uq.id = nq.id)) then acc
      else acc ++ [nq])
    updatedList

/-- The per-request fields written by processQueue plus the accumulated
questions list, as left by the overall-attempts loop. -/
structure ReqResult where
  gq : List QuestionData
  status : RequestStatus
  errorDetails : Option Str
  jsonCorrectionAttempts : Nat
  questionsGeneratedCount : Nat
deriving DecidableEq

/-- One queued request's generateQuestionsFromGemini outcomes, keyed by
the overall attempt index and the lastOverallAttemptError passed back
into the prompt: either a thrown error message or (parsedQuestions,
jsonCorrectionAttempts). -/
def RequestOracle : Type := Nat → Option Str → Except Str (List QuestionData × Nat)

/-- The `while (overallAttempt < MAX_OVERALL_REQUEST_ATTEMPTS &&
!successInRequest)` loop of processQueue (App.tsx lines 650-723), with
the remaining-attempts budget `MAX_OVERALL_REQUEST_ATTEMPTS -
overallAttempt` as structural fuel.  A successful attempt merges the
batch, completes the request and stops; a failed attempt records the
error, marking the request Error when it was the last attempt
(overallAttempt = MAX-1).  The fuel-exhausted case keeps the Processing
state set before the loop and is unreachable from the entry call. -/
def requestAttemptLoop (o : RequestOracle) (gq : List QuestionData) :
    Nat → Nat → Option Str → Nat → ReqResult
  | 0, _, _, totalJson => ReqResult.mk gq RequestStatus.Processing none totalJson 0
  | remaining + 1, overallAttempt, lastErr, totalJson =>
    match o overallAttempt lastErr with
    | .ok (qs, jAtt) =>
      ReqResult.mk (mergeQuestions gq qs) RequestStatus.Completed none jAtt qs.length
    | .error e =>
      if overallAttempt = MAX_OVERALL_REQUEST_ATTEMPTS - 1 then
        ReqResult.mk gq RequestStatus.Error (some e) totalJson 0
      else requestAttemptLoop o gq remaining (overallAttempt + 1) (some e) totalJson

/-- Processing one request of the queue (loop body of App.tsx lines
633-724), from the pre-loop reset through the overall attempts. -/
def processOneRequest (o : RequestOracle) (gq : List QuestionData) : ReqResult :=
  requestAttemptLoop o gq MAX_OVERALL_REQUEST_ATTEMPTS 0 none 0

/-- The setRequests update marking the current request Processing with
reset fields (App.tsx line 641). -/
def applyStart (reqs : List GenerationRequest) (rid : Str) : List GenerationRequest :=
  reqs.map (fun r =>
    if r.id = rid then GenerationRequest.mk r.id r.prompt RequestStatus.Processing none 0 0
    else r)

/-- The setRequests update recording the current request's final outcome
(App.tsx lines 702 and 718). -/
def applyFinish (reqs : List GenerationRequest) (rid : Str) (res : ReqResult) :
    List GenerationRequest :=
  reqs.map (fun r =>
    if r.id = rid then
      GenerationRequest.mk r.id r.prompt res.status res.errorDetails
        res.jsonCorrectionAttempts res.questionsGeneratedCount
    else r)

/-- The pending-or-error selection of App.tsx line 631. -/
def selectedRequests (reqs : List GenerationRequest) : List GenerationRequest :=
  reqs.filter (fun r =>
    decide (r.status = RequestStatus.Pending ∨ r.status = RequestStatus.Error))

/-- The sequential for-loop of processQueue (App.tsx lines 633-725):
process the pending requests one at a time in order, recording a
snapshot of the requests list after each setRequests call.  Returns
(snapshots, final requests, final questions); `o i` is the oracle of the
i-th selected request. -/
def runQueue (o : Nat → RequestOracle) :
    Nat → List GenerationRequest → List QuestionData → List GenerationRequest →
    List (List GenerationRequest) × List GenerationRequest × List QuestionData
  | _, reqs, gq, [] => ([], reqs, gq)
  | i, reqs, gq, p :: rest =>
    let s1 := applyStart reqs p.id
    let res := processOneRequest (o i) gq
    let s2 := applyFinish s1 p.id res
    let t := runQueue o (i + 1) s2 res.gq rest
    (s1 :: s2 :: t.1, t.2)

/-- processQueue (App.tsx lines 616-734): the final requests list and
questions list of a run. -/
def processQueue (o : Nat → RequestOracle) (reqs : List GenerationRequest)
    (gq : List QuestionData) : List GenerationRequest × List QuestionData :=
  (runQueue o 0 reqs gq (selectedRequests reqs)).2

/-- The successive requests-list snapshots of a processQueue run (one per
setRequests call). -/
def processQueueTrace (o : Nat → RequestOracle) (reqs : List GenerationRequest)
    (gq : List QuestionData) : List (List GenerationRequest) :=
  (runQueue o 0 reqs gq (selectedRequests reqs)).1

-- ==================== theorems ====================

theorem escapeCsvField_eq_spec (f : Option Str) : escapeCsvField f = specEscapeField f := by
  cases f with
  | none => rfl
  | some s =>
    unfold escapeCsvField specEscapeField
    have hd : doubleQuotes s = s.flatMap (fun c => if c = '"' then ['"', '"'] else [c]) := by
      induction s with
      | nil => rfl
      | cons c rest ih => by_cases h : c = '"' <;> simp [doubleQuotes, h, ih, List.flatMap_cons]
    have hc : (',' ∈ s ∨ '"' ∈ s ∨ '\n' ∈ s) ↔ (∃ c ∈ s, c = ',' ∨ c = '"' ∨ c = '\n') := by
      constructor
      · rintro (h | h | h)
        · exact ⟨',', h, Or.inl rfl⟩
        · exact ⟨'"', h, Or.inr (Or.inl rfl)⟩
        · exact ⟨'\n', h, Or.inr (Or.inr rfl)⟩
      · rintro ⟨c, hm, (rfl | rfl | rfl)⟩
        · exact Or.inl hm
        · exact Or.inr (Or.inl hm)
        · exact Or.inr (Or.inr hm)
    simp only [hc, hd]

/-- C7: generateCsvString returns the CSV_HEADERS joined by commas as the
first line, followed by exactly one data row per question in list order;
each row holds the eight fields, a field being wrapped in double quotes
with inner double quotes doubled exactly when it contains a comma, double
quote, or newline, and undefined, null, or empty fields becoming empty. -/
theorem generateCsvString_matches_spec (questions : List QuestionData) :
    generateCsvString questions = specCsvString questions := by
  have h : escapeCsvField = specEscapeField := funext escapeCsvField_eq_spec
  unfold generateCsvString specCsvString csvDataRow csvHeaderRow
  rw [h]

theorem scanCsv_cons_other (c : Char) (t cur : Str) (inQ : Bool)
    (hcq : ¬(c = '"')) (hcc : ¬(c = ',')) :
    scanCsv (c :: t) cur inQ = scanCsv t (cur ++ [c]) inQ := by
  rw [scanCsv.eq_2, if_neg hcq, if_neg hcc]

theorem scanCsv_cons_comma_top (t cur : Str) :
    scanCsv (',' :: t) cur false = cur :: scanCsv t [] false := by
  rw [scanCsv.eq_2]
  simp

theorem scanCsv_cons_comma_inq (t cur : Str) :
    scanCsv (',' :: t) cur true = scanCsv t (cur ++ [',']) true := by
  rw [scanCsv.eq_2]
  simp

theorem scanCsv_open_quote (t cur : Str) :
    scanCsv ('"' :: t) cur false = scanCsv t cur true := by
  rw [scanCsv.eq_2]
  simp

theorem scanCsv_escaped_quote (t cur : Str) :
    scanCsv ('"' :: '"' :: t) cur true = scanCsv t (cur ++ ['"']) true := by
  rw [scanCsv.eq_2]
  simp

theorem scanCsv_close_quote (t cur : Str) (h : t.head? ≠ some '"') :
    scanCsv ('"' :: t) cur true = scanCsv t cur false := by
  rw [scanCsv.eq_2]
  simp [h]

theorem scanCsv_unquoted (v : Str) (hq : '"' ∉ v) (hcm : ',' ∉ v) :
    ∀ rest cur : Str, scanCsv (v ++ rest) cur false = scanCsv rest (cur ++ v) false := by
  induction v with
  | nil => intro rest cur; simp
  | cons c w ih =>
    intro rest cur
    have hcq : ¬(c = '"') := fun h => hq (h ▸ List.mem_cons_self c w)
    have hcc : ¬(c = ',') := fun h => hcm (h ▸ List.mem_cons_self c w)
    have hq2 : '"' ∉ w := fun h => hq (List.mem_cons_of_mem c h)
    have hcm2 : ',' ∉ w := fun h => hcm (List.mem_cons_of_mem c h)
    rw [List.cons_append, scanCsv_cons_other c (w ++ rest) cur false hcq hcc]
    rw [ih hq2 hcm2 rest (cur ++ [c])]
    simp

theorem scanCsv_quoted_body (v : Str) :
    ∀ rest cur : Str, rest.head? ≠ some '"' →
      scanCsv (doubleQuotes v ++ ('"' :: rest)) cur true = scanCsv rest (cur ++ v) false := by
  induction v with
  | nil =>
    intro rest cur hr
    simp only [doubleQuotes, List.nil_append]
    rw [scanCsv_close_quote rest cur hr]
    simp
  | cons c w ih =>
    intro rest cur hr
    by_cases hc : c = '"'
    · subst hc
      have hdq : doubleQuotes ('"' :: w) = '"' :: '"' :: doubleQuotes w := by
        simp [doubleQuotes]
      rw [hdq, List.cons_append, List.cons_append]
      rw [scanCsv_escaped_quote (doubleQuotes w ++ '"' :: rest) cur]
      rw [ih rest (cur ++ ['"']) hr]
      simp
    · simp only [doubleQuotes, if_neg hc, List.cons_append]
      by_cases hcc : c = ','
      · subst hcc
        rw [scanCsv_cons_comma_inq (doubleQuotes w ++ '"' :: rest) cur]
        rw [ih rest (cur ++ [',']) hr]
        simp
      · rw [scanCsv_cons_other c (doubleQuotes w ++ '"' :: rest) cur true hc hcc]
        rw [ih rest (cur ++ [c]) hr]
        simp

theorem scanCsv_field (f : Option Str) (rest cur : Str) (hr : rest.head? ≠ some '"') :
    scanCsv (escapeCsvField f ++ rest) cur false = scanCsv rest (cur ++ f.getD []) false := by
  cases f with
  | none => simp [escapeCsvField]
  | some v =>
    by_cases hv : v = []
    · subst hv; simp [escapeCsvField]
    · by_cases hspec : (',' ∈ v ∨ '"' ∈ v ∨ '\n' ∈ v)
      · have hesc : escapeCsvField (some v) = '"' :: (doubleQuotes v ++ ['"']) := by
          simp [escapeCsvField, hv, hspec]
        rw [hesc]
        have hshape : ('"' :: (doubleQuotes v ++ ['"'])) ++ rest
            = '"' :: (doubleQuotes v ++ ('"' :: rest)) := by
          simp
        rw [hshape, scanCsv_open_quote (doubleQuotes v ++ ('"' :: rest)) cur]
        exact scanCsv_quoted_body v rest cur hr
      · have hesc : escapeCsvField (some v) = v := by
          simp [escapeCsvField, hv, hspec]
        rw [hesc]
        push_neg at hspec
        exact scanCsv_unquoted v hspec.2.1 hspec.1 rest cur

theorem intercalate_cons_cons (sep a b : Str) (l : List Str) :
    List.intercalate sep (a :: b :: l) = a ++ sep ++ List.intercalate sep (b :: l) := by
  simp [List.intercalate, List.intersperse_cons_cons, List.append_assoc]

theorem scanCsv_intercalate (fs : List (Option Str)) (hne : fs ≠ []) :
    scanCsv (List.intercalate [','] (fs.map escapeCsvField)) [] false
      = fs.map (fun f => f.getD []) := by
  induction fs with
  | nil => exact absurd rfl hne
  | cons f fs ih =>
    cases fs with
    | nil =>
      have h := scanCsv_field f [] [] (by simp)
      simp only [List.append_nil] at h
      rw [show List.intercalate [','] ((f :: []).map escapeCsvField) = escapeCsvField f by
        simp [List.intercalate]]
      rw [h, scanCsv.eq_1]
      simp
    | cons g gs =>
      simp only [List.map]
      rw [intercalate_cons_cons, List.append_assoc, List.singleton_append]
      rw [scanCsv_field f (',' :: List.intercalate [','] (escapeCsvField g :: gs.map escapeCsvField)) [] (by simp)]
      rw [scanCsv_cons_comma_top]
      have ih2 := ih (by simp)
      simp only [List.map] at ih2
      rw [ih2]
      simp

theorem cleanCsvField_of_plain (v : Str) (ht : jsTrim v = v)
    (hq : ¬(v.head? = some '"' ∧ v.getLast? = some '"')) :
    cleanCsvField v = v := by
  unfold cleanCsvField
  rw [if_neg hq]
  exact ht

/-- C9: for questions whose field values contain no newline, equal their
own trimmed form, and do not both start and end with a double quote,
parseCsvLineRobust applied to the data row that generateCsvString
produces for the question recovers the original eight field values,
undefined fields coming back as empty strings.  (The data rows of
`generateCsvString qs` are exactly `csvDataRow q` for `q ∈ qs`, by the
definition of generateCsvString; the first conjunct records this for a
singleton list.) -/
theorem parseCsvLineRobust_roundtrip (q : QuestionData)
    (hgood : ∀ f ∈ questionFields q, goodFieldValue f) :
    generateCsvString [q] = csvHeaderRow ++ '\n' :: csvDataRow q ∧
    parseCsvLineRobust (csvDataRow q) = (questionFields q).map (fun f => f.getD []) := by
  constructor
  · simp [generateCsvString, List.intercalate]
  · unfold parseCsvLineRobust csvDataRow
    rw [scanCsv_intercalate (questionFields q) (by simp [questionFields])]
    rw [List.map_map]
    apply List.map_congr_left
    intro f hf
    cases f with
    | none =>
      show cleanCsvField [] = []
      unfold cleanCsvField
      rw [if_neg (by simp)]
      rfl
    | some v =>
      show cleanCsvField v = v
      have h := hgood (some v) hf
      simp only [goodFieldValue] at h
      exact cleanCsvField_of_plain v h.2.1 h.2.2

/-- Witness for C9: a concrete question exercising the quoting paths
(comma and double quote inside field values, undefined optional fields). -/
theorem parseCsvLineRobust_roundtrip_witness :
    (∀ f ∈ questionFields (QuestionData.mk ("id1".data) ("Ho,la".data) ("a\"b".data)
        none (some ("x".data)) none none none (some [])), goodFieldValue f) ∧
    parseCsvLineRobust (csvDataRow (QuestionData.mk ("id1".data) ("Ho,la".data) ("a\"b".data)
        none (some ("x".data)) none none none (some [])))
      = [("Ho,la".data), ("a\"b".data), [], ("x".data), [], [], [], []] := by
  refine ⟨by decide, ?_⟩
  exact (parseCsvLineRobust_roundtrip _ (by decide)).2

theorem geminiLoop_unfold_lt (env : GenEnv) (p : Str) (attempts : Nat) (lastRaw : Str)
    (lastErr : Option Str) (h : attempts < MAX_JSON_CORRECTION_ATTEMPTS) :
    geminiLoop env p attempts lastRaw lastErr =
      match iterStep env attempts lastRaw lastErr with
      | .inl ok => .ok (GenSuccess.mk ok.1 ok.2 attempts)
      | .inr f => geminiLoop env p (attempts + 1) f.1 (some f.2) := by
  conv_lhs => unfold geminiLoop
  rw [dif_pos h]

theorem geminiLoop_unfold_ge (env : GenEnv) (p : Str) (attempts : Nat) (lastRaw : Str)
    (lastErr : Option Str) (h : ¬(attempts < MAX_JSON_CORRECTION_ATTEMPTS)) :
    geminiLoop env p attempts lastRaw lastErr
      = .error (finalErrorMsg p lastErr lastRaw) := by
  unfold geminiLoop
  rw [dif_neg h]

theorem attempt_fails_outcome (env : GenEnv) (raw0 : Str) (k : Nat)
    (h : attemptSucceeds env raw0 k = false) :
    ∃ f, attemptOutcome env raw0 k = Sum.inr f := by
  unfold attemptSucceeds at h
  cases ho : attemptOutcome env raw0 k with
  | inl v => rw [ho] at h; simp at h
  | inr f => exact ⟨f, rfl⟩

theorem geminiLoop_reach (env : GenEnv) (p raw0 : Str) :
    ∀ k, k ≤ MAX_JSON_CORRECTION_ATTEMPTS →
      (∀ j, j < k → attemptSucceeds env raw0 j = false) →
      geminiLoop env p 0 raw0 none
        = geminiLoop env p k (loopStateAt env raw0 k).1 (loopStateAt env raw0 k).2 := by
  intro k
  induction k with
  | zero => intro _ _; rfl
  | succ k ih =>
    intro hk hfail
    have hkm : k < MAX_JSON_CORRECTION_ATTEMPTS := lt_of_lt_of_le (Nat.lt_succ_self k) hk
    have h1 := ih (Nat.le_of_lt hk) (fun j hj => hfail j (Nat.lt_succ_of_lt hj))
    obtain ⟨f, hf⟩ := attempt_fails_outcome env raw0 k (hfail k (Nat.lt_succ_self k))
    unfold attemptOutcome at hf
    rw [h1, geminiLoop_unfold_lt env p k _ _ hkm, hf]
    have hst : loopStateAt env raw0 (k + 1) = (f.1, some f.2) := by
      unfold loopStateAt
      rw [hf]
    rw [hst]

theorem geminiLoop_all_fail (env : GenEnv) (p raw0 : Str)
    (hfail : ∀ k, k < MAX_JSON_CORRECTION_ATTEMPTS → attemptSucceeds env raw0 k = false) :
    generateQuestionsFromGemini env p raw0
      = .error (finalErrorMsg p (loopStateAt env raw0 MAX_JSON_CORRECTION_ATTEMPTS).2
          (loopStateAt env raw0 MAX_JSON_CORRECTION_ATTEMPTS).1) := by
  unfold generateQuestionsFromGemini
  rw [geminiLoop_reach env p raw0 MAX_JSON_CORRECTION_ATTEMPTS le_rfl hfail]
  exact geminiLoop_unfold_ge env p _ _ _ (lt_irrefl _)

theorem geminiLoop_first_success (env : GenEnv) (p raw0 : Str) (k : Nat)
    (hk : k < MAX_JSON_CORRECTION_ATTEMPTS)
    (hfail : ∀ j, j < k → attemptSucceeds env raw0 j = false)
    (r : Str) (qs : List QuestionData)
    (hout : attemptOutcome env raw0 k = Sum.inl (r, qs)) :
    generateQuestionsFromGemini env p raw0 = .ok (GenSuccess.mk r qs k) := by
  unfold generateQuestionsFromGemini
  rw [geminiLoop_reach env p raw0 k (Nat.le_of_lt hk) hfail]
  rw [geminiLoop_unfold_lt env p k _ _ hk]
  unfold attemptOutcome at hout
  rw [hout]

theorem isInfix_both_parts (A B C faulty err : Str) :
    List.IsInfix faulty (A ++ err ++ B ++ faulty ++ C)
    ∧ List.IsInfix err (A ++ err ++ B ++ faulty ++ C) := by
  constructor
  · exact List.infix_append _ _ _
  · have h1 : A ++ err ++ B ++ faulty ++ C = A ++ err ++ (B ++ faulty ++ C) := by
      simp [List.append_assoc]
    rw [h1]
    exact List.infix_append _ _ _

theorem correctionPrompt_contains (faulty err : Str) :
    List.IsInfix faulty (constructJsonCorrectionPrompt faulty err)
    ∧ List.IsInfix err (constructJsonCorrectionPrompt faulty err) := by
  unfold constructJsonCorrectionPrompt
  exact isInfix_both_parts correctionPromptPart1 correctionPromptPart2 correctionPromptPart3 faulty err

/-- C1: in generateQuestionsFromGemini, whenever the aggregated output
fails to parse as a JSON array of valid question objects (or is empty),
the model is re-prompted with a correction prompt containing the faulty
output and the error message; at most MAX_JSON_CORRECTION_ATTEMPTS (5)
attempts are made in total, the first successful attempt's questions are
returned (with the counter equal to that attempt's index), and the
function throws if and only if every attempt fails.  `attemptOutcome k`
is the parse/validation outcome of iteration k of the loop and
`loopStateAt k` the (faulty output, last error) pair entering it. -/
theorem generateQuestions_correction_loop (env : GenEnv) (p raw0 : Str) :
    ((∃ v, generateQuestionsFromGemini env p raw0 = Except.ok v)
        ↔ (∃ k, k < MAX_JSON_CORRECTION_ATTEMPTS ∧ attemptSucceeds env raw0 k = true))
    ∧ (∀ k, k < MAX_JSON_CORRECTION_ATTEMPTS →
        (∀ j, j < k → attemptSucceeds env raw0 j = false) →
        ∀ r qs, attemptOutcome env raw0 k = Sum.inl (r, qs) →
          generateQuestionsFromGemini env p raw0 = Except.ok (GenSuccess.mk r qs k))
    ∧ ((∀ k, k < MAX_JSON_CORRECTION_ATTEMPTS → attemptSucceeds env raw0 k = false) →
        generateQuestionsFromGemini env p raw0
          = Except.error (finalErrorMsg p (loopStateAt env raw0 MAX_JSON_CORRECTION_ATTEMPTS).2
              (loopStateAt env raw0 MAX_JSON_CORRECTION_ATTEMPTS).1))
    ∧ (∀ k, 0 < k →
        fetchRaw env k (loopStateAt env raw0 k).1 (loopStateAt env raw0 k).2
          = env.modelReply (constructJsonCorrectionPrompt (loopStateAt env raw0 k).1
              (((loopStateAt env raw0 k).2).getD defaultParseErr))
        ∧ List.IsInfix (loopStateAt env raw0 k).1
            (constructJsonCorrectionPrompt (loopStateAt env raw0 k).1
              (((loopStateAt env raw0 k).2).getD defaultParseErr))
        ∧ List.IsInfix (((loopStateAt env raw0 k).2).getD defaultParseErr)
            (constructJsonCorrectionPrompt (loopStateAt env raw0 k).1
              (((loopStateAt env raw0 k).2).getD defaultParseErr))) := by
  classical
  refine ⟨?_, ?_, ?_, ?_⟩
  · constructor
    · rintro ⟨v, hv⟩
      by_contra hno
      push_neg at hno
      have hfail : ∀ k, k < MAX_JSON_CORRECTION_ATTEMPTS → attemptSucceeds env raw0 k = false := by
        intro k hk
        cases h : attemptSucceeds env raw0 k
        · rfl
        · exact absurd h (hno k hk)
      rw [geminiLoop_all_fail env p raw0 hfail] at hv
      exact Except.noConfusion hv
    · rintro ⟨k, hk, hsucc⟩
      have hex : ∃ m, m < MAX_JSON_CORRECTION_ATTEMPTS ∧ attemptSucceeds env raw0 m = true :=
        ⟨k, hk, hsucc⟩
      have hm := Nat.find_spec hex
      have hfail : ∀ j, j < Nat.find hex → attemptSucceeds env raw0 j = false := by
        intro j hj
        have hjlt : j < MAX_JSON_CORRECTION_ATTEMPTS := lt_trans hj hm.1
        cases h : attemptSucceeds env raw0 j
        · rfl
        · exact absurd (And.intro hjlt h) (Nat.find_min hex hj)
      obtain ⟨st, hst⟩ : ∃ st, attemptOutcome env raw0 (Nat.find hex) = Sum.inl st := by
        have hsu := hm.2
        unfold attemptSucceeds at hsu
        cases ho : attemptOutcome env raw0 (Nat.find hex) with
        | inl v2 => exact ⟨v2, rfl⟩
        | inr f => rw [ho] at hsu; simp at hsu
      exact ⟨_, geminiLoop_first_success env p raw0 (Nat.find hex) hm.1 hfail st.1 st.2 hst⟩
  · intro k hk hfail r qs hout
    exact geminiLoop_first_success env p raw0 k hk hfail r qs hout
  · intro hfail
    exact geminiLoop_all_fail env p raw0 hfail
  · intro k hkpos
    refine ⟨?_, (correctionPrompt_contains _ _).1, (correctionPrompt_contains _ _).2⟩
    unfold fetchRaw
    rw [if_pos hkpos]

/-- Witness for C1: an environment whose first attempt parses an empty
JSON array succeeds immediately with zero correction attempts. -/
theorem generateQuestions_correction_loop_witness :
    generateQuestionsFromGemini
        (GenEnv.mk (fun _ => Except.ok (Json.arr []))
          (fun _ => Except.error ("nope".data)) (fun _ => ("x".data)))
        ("p".data) ("[]".data)
      = Except.ok (GenSuccess.mk ("[]".data) [] 0) := by
  exact (generateQuestions_correction_loop
      (GenEnv.mk (fun _ => Except.ok (Json.arr []))
        (fun _ => Except.error ("nope".data)) (fun _ => ("x".data)))
      ("p".data) ("[]".data)).2.1
    0 (by decide) (fun j hj => absurd hj (Nat.not_lt_zero j)) ("[]".data) [] rfl


theorem jsTrim_nil : jsTrim [] = [] := rfl

theorem genIdPrefix_ne_nil : genIdPrefix ≠ [] := by decide

theorem take4_genIdPrefix (s : Str) : (genIdPrefix ++ s).take 4 = genIdPrefix := by
  rw [show (4 : Nat) = genIdPrefix.length from rfl]
  exact List.take_left genIdPrefix s

theorem validateItem_ok_invariants (env : GenEnv) (i : Nat) (item : Json) (q : QuestionData)
    (h : validateItem env i item = Except.ok q) :
    ¬(jsTrim q.Pregunta = []) ∧ ¬(jsTrim q.opcionCorrecta1 = [])
    ∧ (∃ s, q.Explicacion = some s)
    ∧ ((item.getField keyExplicacion = none ∨ item.getField keyExplicacion = some Json.null) →
        q.Explicacion = some [])
    ∧ ¬(q.id = [])
    ∧ (match item.getField keyId with
       | some (Json.str s) =>
         if ¬(jsTrim s = []) then q.id = s else q.id.take 4 = genIdPrefix
       | _ => q.id.take 4 = genIdPrefix) := by
  simp only [validateItem] at h
  split at h
  · exact absurd h (by simp)
  · split at h
    · rename_i d1 d2 pS cS hp hc1
      split at h
      · exact absurd h (by simp)
      · rename_i hcond
        injection h with hq
        subst hq
        push_neg at hcond
        refine ⟨hcond.1, hcond.2, ⟨_, rfl⟩, ?_, ?_, ?_⟩
        · intro hE
          rcases hE with hE | hE <;> simp [hE]
        · show ¬((match item.getField keyId with
            | some (Json.str s) => if ¬(jsTrim s = []) then s else genIdPrefix ++ env.genSuffix i
            | _ => genIdPrefix ++ env.genSuffix i) = [])
          cases hid : item.getField keyId with
          | none =>
            simp only []
            exact fun hnil => genIdPrefix_ne_nil (List.append_eq_nil.mp hnil).1
          | some jv =>
            cases jv with
            | str s =>
              by_cases hs : jsTrim s = []
              · simp only [hs, not_true_eq_false, if_false]
                exact fun hnil => genIdPrefix_ne_nil (List.append_eq_nil.mp hnil).1
              · simp only [hs, not_false_eq_true, if_true]
                intro hnil
                subst hnil
                exact hs jsTrim_nil
            | null => exact fun hnil => genIdPrefix_ne_nil (List.append_eq_nil.mp hnil).1
            | bool b => exact fun hnil => genIdPrefix_ne_nil (List.append_eq_nil.mp hnil).1
            | num n => exact fun hnil => genIdPrefix_ne_nil (List.append_eq_nil.mp hnil).1
            | arr xs => exact fun hnil => genIdPrefix_ne_nil (List.append_eq_nil.mp hnil).1
            | obj fs => exact fun hnil => genIdPrefix_ne_nil (List.append_eq_nil.mp hnil).1
        · cases hid : item.getField keyId with
          | none => exact take4_genIdPrefix _
          | some jv =>
            cases jv with
            | str s =>
              by_cases hs : jsTrim s = []
              · simp only [hs, not_true_eq_false, if_false]
                exact take4_genIdPrefix _
              · simp only [hs, not_false_eq_true, if_true]
            | null => exact take4_genIdPrefix _
            | bool b => exact take4_genIdPrefix _
            | num n => exact take4_genIdPrefix _
            | arr xs => exact take4_genIdPrefix _
            | obj fs => exact take4_genIdPrefix _
    · exact absurd h (by simp)

theorem validateItems_mem (env : GenEnv) :
    ∀ (items : List Json) (i : Nat) (qs : List QuestionData),
      validateItems env items i = Except.ok qs →
      ∀ q ∈ qs, ∃ j item, validateItem env j item = Except.ok q := by
  intro items
  induction items with
  | nil =>
    intro i qs h q hq
    simp only [validateItems] at h
    injection h with h2
    subst h2
    simp at hq
  | cons item rest ih =>
    intro i qs h q hq
    simp only [validateItems] at h
    cases h1 : validateItem env i item with
    | error e => rw [h1] at h; exact absurd h (by simp)
    | ok q1 =>
      rw [h1] at h
      cases h2 : validateItems env rest (i + 1) with
      | error e => rw [h2] at h; exact absurd h (by simp)
      | ok qs1 =>
        rw [h2] at h
        injection h with h3
        subst h3
        rcases List.mem_cons.mp hq with hq2 | hq2
        · subst hq2
          exact ⟨i, item, h1⟩
        · exact ih (i + 1) qs1 h2 q hq2

theorem parseAndValidate_ok_items (env : GenEnv) (raw : Str) (qs : List QuestionData)
    (h : parseAndValidate env raw = Except.ok qs) :
    ∃ items i, validateItems env items i = Except.ok qs := by
  simp only [parseAndValidate] at h
  split at h
  · exact absurd h (by simp)
  · split at h
    · split at h
      · exact absurd h (by simp)
      · split at h
        · exact absurd h (by simp)
        · split at h
          · exact absurd h (by simp)
          · rename_i d1 d2 items hjson d3 qs1 hv hc1 hc2
            injection h with h2
            subst h2
            exact ⟨items, 0, hv⟩
    · exact absurd h (by simp)

theorem iterStep_inl (env : GenEnv) (a : Nat) (r : Str) (e : Option Str)
    (pr : Str × List QuestionData) (h : iterStep env a r e = Sum.inl pr) :
    parseAndValidate env pr.1 = Except.ok pr.2 := by
  unfold iterStep at h
  split at h
  · exact absurd h (by simp)
  · split at h
    · exact absurd h (by simp)
    · split at h
      · rename_i raw2 hfetch htrim qs hparse
        injection h with h2
        subst h2
        exact hparse
      · exact absurd h (by simp)

theorem geminiLoop_ok_source (env : GenEnv) (p : Str) :
    ∀ (n attempts : Nat) (lastRaw : Str) (lastErr : Option Str) (v : GenSuccess),
      MAX_JSON_CORRECTION_ATTEMPTS - attempts ≤ n →
      geminiLoop env p attempts lastRaw lastErr = Except.ok v →
      parseAndValidate env v.rawText = Except.ok v.parsedQuestions := by
  intro n
  induction n with
  | zero =>
    intro attempts lastRaw lastErr v hle hok
    rw [geminiLoop_unfold_ge env p attempts lastRaw lastErr (by omega)] at hok
    exact absurd hok (by simp)
  | succ n ih =>
    intro attempts lastRaw lastErr v hle hok
    by_cases h : attempts < MAX_JSON_CORRECTION_ATTEMPTS
    · rw [geminiLoop_unfold_lt env p attempts lastRaw lastErr h] at hok
      cases hstep : iterStep env attempts lastRaw lastErr with
      | inl pr =>
        rw [hstep] at hok
        injection hok with h2
        subst h2
        exact iterStep_inl env attempts lastRaw lastErr pr hstep
      | inr f =>
        rw [hstep] at hok
        exact ih (attempts + 1) f.1 (some f.2) v (by omega) hok
    · rw [geminiLoop_unfold_ge env p attempts lastRaw lastErr h] at hok
      exact absurd hok (by simp)

/-- C8: every QuestionData in the parsedQuestions of a successful
generateQuestionsFromGemini call has a Pregunta and an
`Opción correcta 1` that are non-empty after trimming, an Explicación
that is always a string (null or undefined from the model becomes ""),
and a non-empty id: the model-supplied string id when present (non-empty
after trimming), otherwise a fresh id starting with "gen-". -/
theorem parsedQuestions_invariants (env : GenEnv) :
    (∀ (i : Nat) (item : Json) (q : QuestionData), validateItem env i item = Except.ok q →
        ¬(jsTrim q.Pregunta = []) ∧ ¬(jsTrim q.opcionCorrecta1 = [])
        ∧ ((item.getField keyExplicacion = none ∨ item.getField keyExplicacion = some Json.null) →
            q.Explicacion = some [])
        ∧ (match item.getField keyId with
           | some (Json.str s) =>
             if ¬(jsTrim s = []) then q.id = s else q.id.take 4 = genIdPrefix
           | _ => q.id.take 4 = genIdPrefix))
    ∧ (∀ (p raw0 : Str) (v : GenSuccess),
        generateQuestionsFromGemini env p raw0 = Except.ok v →
        ∀ q ∈ v.parsedQuestions,
          ¬(jsTrim q.Pregunta = []) ∧ ¬(jsTrim q.opcionCorrecta1 = [])
          ∧ (∃ s, q.Explicacion = some s) ∧ ¬(q.id = [])) := by
  constructor
  · intro i item q h
    have hi := validateItem_ok_invariants env i item q h
    exact ⟨hi.1, hi.2.1, hi.2.2.2.1, hi.2.2.2.2.2⟩
  · intro p raw0 v hok q hq
    have hsrc := geminiLoop_ok_source env p MAX_JSON_CORRECTION_ATTEMPTS 0 raw0 none v
      (by omega) hok
    obtain ⟨items, i, hitems⟩ := parseAndValidate_ok_items env v.rawText v.parsedQuestions hsrc
    obtain ⟨j, item, hitem⟩ := validateItems_mem env items i v.parsedQuestions hitems q hq
    have hi := validateItem_ok_invariants env j item q hitem
    exact ⟨hi.1, hi.2.1, hi.2.2.1, hi.2.2.2.2.1⟩

/-- Witness for C8: a concrete item with Pregunta "Q1", correct option
"A1", no Explicación and no id validates to a question with Explicación
"" and a fresh "gen-" id. -/
theorem parsedQuestions_invariants_witness :
    ¬(jsTrim ("Q1".data) = []) ∧ ¬(jsTrim ("A1".data) = [])
    ∧ (((Json.obj [(keyPregunta, Json.str ("Q1".data)),
          (keyOpcionCorrecta1, Json.str ("A1".data))]).getField keyExplicacion = none ∨
        (Json.obj [(keyPregunta, Json.str ("Q1".data)),
          (keyOpcionCorrecta1, Json.str ("A1".data))]).getField keyExplicacion = some Json.null) →
        (some ([] : Str) : Option Str) = some [])
    ∧ (("gen-7".data).take 4 = genIdPrefix) := by
  exact (parsedQuestions_invariants
      (GenEnv.mk (fun _ => Except.ok (Json.arr []))
        (fun _ => Except.error ("nope".data)) (fun _ => ("7".data)))).1
    0
    (Json.obj [(keyPregunta, Json.str ("Q1".data)), (keyOpcionCorrecta1, Json.str ("A1".data))])
    (QuestionData.mk ("gen-7".data) ("Q1".data) ("A1".data) none none none none none (some []))
    rfl

theorem lastIndexOf_fold (P : Nat → Prop) [DecidablePred P] :
    ∀ (n q : Nat), q < n → P q → (∀ m, m < n → q < m → ¬P m) →
      (List.range n).foldl (fun acc p => if P p then some p else acc) none = some q := by
  intro n
  induction n with
  | zero => intro q hq _ _; omega
  | succ n ih =>
    intro q hq hPq hmax
    rw [List.range_succ, List.foldl_append]
    simp only [List.foldl_cons, List.foldl_nil]
    by_cases hqn : q = n
    · subst hqn
      rw [if_pos hPq]
    · have hqlt : q < n := by omega
      have hPn : ¬P n := hmax n (Nat.lt_succ_self n) (by omega)
      rw [if_neg hPn]
      exact ih q hqlt hPq (fun m hm hqm => hmax m (Nat.lt_succ_of_lt hm) hqm)

theorem jsLastIndexOf_eq (s pat : Str) (q : Nat)
    (hocc : occursAt s pat q) (hmax : ∀ m, m ≤ s.length → q < m → ¬occursAt s pat m)
    (hle : q ≤ s.length) :
    jsLastIndexOf s pat = some q := by
  unfold jsLastIndexOf
  exact lastIndexOf_fold (occursAt s pat) (s.length + 1) q (by omega) hocc
    (fun m hm hqm => hmax m (by omega) hqm)

theorem scanToQuote_ws (ws : Str)
    (hws : ∀ c ∈ ws, c = ':' ∨ c = ' ' ∨ c = '\n' ∨ c = '\t') :
    ∀ t : Str, scanToQuote (ws ++ '"' :: t) = some (ws.length + 1) := by
  induction ws with
  | nil =>
    intro t
    simp [scanToQuote]
  | cons c w ih =>
    intro t
    have hc := hws c (List.mem_cons_self c w)
    have hw : ∀ c2 ∈ w, c2 = ':' ∨ c2 = ' ' ∨ c2 = '\n' ∨ c2 = '\t' :=
      fun c2 h2 => hws c2 (List.mem_cons_of_mem c h2)
    have hcq : ¬(c = '"') := by
      rcases hc with h | h | h | h <;> subst h <;> decide
    have hskip : ¬(¬(c = ':') ∧ ¬(c = ' ') ∧ ¬(c = '\n') ∧ ¬(c = '\t')) := by
      rcases hc with h | h | h | h <;> subst h <;> simp
    rw [List.cons_append]
    simp only [scanToQuote, if_neg hcq, if_neg hskip]
    rw [ih hw t]
    simp [List.length_cons]

theorem takeJsonValue_plain (v : Str) (hq : '"' ∉ v) (hb : '\\' ∉ v) :
    ∀ b : Str, takeJsonValue (v ++ '"' :: b) false = (v, true) := by
  induction v with
  | nil =>
    intro b
    simp [takeJsonValue]
  | cons c w ih =>
    intro b
    have hcq : ¬(c = '"') := fun h => hq (h ▸ List.mem_cons_self c w)
    have hcb : ¬(c = '\\') := fun h => hb (h ▸ List.mem_cons_self c w)
    have hq2 : '"' ∉ w := fun h => hq (List.mem_cons_of_mem c h)
    have hb2 : '\\' ∉ w := fun h => hb (List.mem_cons_of_mem c h)
    rw [List.cons_append]
    simp only [takeJsonValue, if_neg hcq, if_neg hcb]
    rw [ih hq2 hb2 b]

theorem extractLatestPregunta_shape (a ws v b : Str)
    (hws : ∀ c ∈ ws, c = ':' ∨ c = ' ' ∨ c = '\n' ∨ c = '\t')
    (hqv : '"' ∉ v) (hbv : '\\' ∉ v)
    (hmax : ∀ m, m ≤ (a ++ preguntaKeyMarker ++ ws ++ '"' :: (v ++ '"' :: b)).length →
       a.length < m → ¬occursAt (a ++ preguntaKeyMarker ++ ws ++ '"' :: (v ++ '"' :: b))
         preguntaKeyMarker m) :
    extractLatestPregunta (a ++ preguntaKeyMarker ++ ws ++ '"' :: (v ++ '"' :: b)) = v := by
  have hocc : occursAt (a ++ preguntaKeyMarker ++ ws ++ '"' :: (v ++ '"' :: b))
      preguntaKeyMarker a.length := by
    unfold occursAt
    have h1 : a ++ preguntaKeyMarker ++ ws ++ '"' :: (v ++ '"' :: b)
        = a ++ (preguntaKeyMarker ++ (ws ++ '"' :: (v ++ '"' :: b))) := by
      simp [List.append_assoc]
    rw [h1, List.drop_left, List.take_left]
  have hlen : a.length ≤ (a ++ preguntaKeyMarker ++ ws ++ '"' :: (v ++ '"' :: b)).length := by
    simp [List.length_append]
  have hdrop1 : (a ++ preguntaKeyMarker ++ ws ++ '"' :: (v ++ '"' :: b)).drop
      (a.length + preguntaKeyMarker.length) = ws ++ '"' :: (v ++ '"' :: b) := by
    have h1 : a ++ preguntaKeyMarker ++ ws ++ '"' :: (v ++ '"' :: b)
        = (a ++ preguntaKeyMarker) ++ (ws ++ '"' :: (v ++ '"' :: b)) := by
      simp [List.append_assoc]
    rw [h1, List.drop_left' (by simp [List.length_append])]
  have hdrop2 : (a ++ preguntaKeyMarker ++ ws ++ '"' :: (v ++ '"' :: b)).drop
      (a.length + preguntaKeyMarker.length + (ws.length + 1)) = v ++ '"' :: b := by
    have h1 : a ++ preguntaKeyMarker ++ ws ++ '"' :: (v ++ '"' :: b)
        = ((a ++ preguntaKeyMarker) ++ ws ++ ['"']) ++ (v ++ '"' :: b) := by
      simp [List.append_assoc]
    rw [h1, List.drop_left' (by simp [List.length_append]; omega)]
  unfold extractLatestPregunta
  rw [jsLastIndexOf_eq _ _ a.length hocc hmax hlen]
  simp only [hdrop1, hdrop2, scanToQuote_ws ws hws (v ++ '"' :: b),
    takeJsonValue_plain v hqv hbv b]
  by_cases hv : v = [] <;> simp [hv]

theorem extractLatestPregunta_nil : extractLatestPregunta [] = [] := by decide

theorem streamFold_inv (chunks : List Str) :
    ∀ (agg : Str) (st : StreamState), st.raw = agg →
      (¬(extractLatestPregunta agg = []) →
        st.preview = some (previewTemplate (escapeHtml (truncateForPreview
          (extractLatestPregunta agg))))) →
      (chunks.foldl streamFoldStep (agg, st)).1 = agg ++ chunks.flatten
      ∧ (chunks.foldl streamFoldStep (agg, st)).2.raw = agg ++ chunks.flatten
      ∧ (¬(extractLatestPregunta (agg ++ chunks.flatten) = []) →
          (chunks.foldl streamFoldStep (agg, st)).2.preview
            = some (previewTemplate (escapeHtml (truncateForPreview
                (extractLatestPregunta (agg ++ chunks.flatten)))))) := by
  induction chunks with
  | nil =>
    intro agg st hraw hprev
    refine ⟨?_, ?_, ?_⟩ <;> simp only [List.foldl_nil, List.flatten_nil, List.append_nil]
    · exact hraw
    · exact hprev
  | cons c rest ih =>
    intro agg st hraw hprev
    simp only [List.foldl_cons, List.flatten_cons]
    by_cases hc : c = []
    · subst hc
      have hstep : streamFoldStep (agg, st) [] = (agg, st) := by
        simp [streamFoldStep]
      rw [hstep]
      simpa using ih agg st hraw hprev
    · have hstep : streamFoldStep (agg, st) c
          = (agg ++ c, setLiveStreamContentCallback st c false) := by
        simp [streamFoldStep, hc]
      rw [hstep]
      have hraw2 : (setLiveStreamContentCallback st c false).raw = agg ++ c := by
        simp [setLiveStreamContentCallback, hraw]
      have hprev2 : ¬(extractLatestPregunta (agg ++ c) = []) →
          (setLiveStreamContentCallback st c false).preview
            = some (previewTemplate (escapeHtml (truncateForPreview
                (extractLatestPregunta (agg ++ c))))) := by
        intro hne
        simp [setLiveStreamContentCallback, hraw, hne]
      have h := ih (agg ++ c) (setLiveStreamContentCallback st c false) hraw2 hprev2
      simpa [List.append_assoc] using h

/-- C3: after each chunk of the token stream, the aggregated text equals
the concatenation of all chunks so far (both the service-side aggregate
and the UI raw-stream ref), and whenever the scanner finds a latest
"Pregunta" value in that aggregate, the preview shows it (HTML-escaped,
truncated to 70 characters, in the preview template).  The third conjunct
identifies the scanner's result with the value of the last "Pregunta"
field: for an aggregate of the form a ++ "Pregunta"-key ++ separators ++
quoted value ++ rest with no later key occurrence, the scanner returns
exactly that value. -/
theorem streaming_aggregator_preview (chunks : List Str) (st0 : StreamState) (k : Nat)
    (hk : k ≤ chunks.length) :
    ((runStreamChunks (chunks.take k) st0).1 = (chunks.take k).flatten
      ∧ (runStreamChunks (chunks.take k) st0).2.raw = (chunks.take k).flatten)
    ∧ (¬(extractLatestPregunta ((chunks.take k).flatten) = []) →
        (runStreamChunks (chunks.take k) st0).2.preview
          = some (previewTemplate (escapeHtml (truncateForPreview
              (extractLatestPregunta ((chunks.take k).flatten))))))
    ∧ (∀ a ws v b : Str,
        (∀ c ∈ ws, c = ':' ∨ c = ' ' ∨ c = '\n' ∨ c = '\t') →
        '"' ∉ v → '\\' ∉ v →
        (∀ m, m ≤ (a ++ preguntaKeyMarker ++ ws ++ '"' :: (v ++ '"' :: b)).length →
          a.length < m →
          ¬occursAt (a ++ preguntaKeyMarker ++ ws ++ '"' :: (v ++ '"' :: b))
            preguntaKeyMarker m) →
        extractLatestPregunta (a ++ preguntaKeyMarker ++ ws ++ '"' :: (v ++ '"' :: b)) = v) := by
  have hst1raw : (setLiveStreamContentCallback st0 [] true).raw = [] := by
    simp [setLiveStreamContentCallback, extractLatestPregunta_nil]
  have hst1prev : ¬(extractLatestPregunta ([] : Str) = []) →
      (setLiveStreamContentCallback st0 [] true).preview
        = some (previewTemplate (escapeHtml (truncateForPreview
            (extractLatestPregunta ([] : Str))))) := by
    intro hne
    exact absurd extractLatestPregunta_nil hne
  have h := streamFold_inv (chunks.take k) [] (setLiveStreamContentCallback st0 [] true)
    hst1raw hst1prev
  simp only [List.nil_append] at h
  refine ⟨⟨h.1, h.2.1⟩, h.2.2, ?_⟩
  intro a ws v b hws hqv hbv hmax
  exact extractLatestPregunta_shape a ws v b hws hqv hbv hmax

/-- Witness for C3: the stream ["x \"Pregunta\": \"Hol", "a\" y"]
aggregates to a text whose latest "Pregunta" value is "Hola", and the
preview shows it. -/
theorem streaming_aggregator_preview_witness :
    extractLatestPregunta (("x \"Pregunta\": \"Hol".data) ++ ("a\" y".data)) = ("Hola".data)
    ∧ (runStreamChunks [("x \"Pregunta\": \"Hol".data), ("a\" y".data)]
        (StreamState.mk [] [] none)).2.preview
      = some (previewTemplate (escapeHtml (truncateForPreview ("Hola".data)))) := by
  have h := streaming_aggregator_preview
    [("x \"Pregunta\": \"Hol".data), ("a\" y".data)] (StreamState.mk [] [] none) 2 (by decide)
  have hshape : ("x \"Pregunta\": \"Hol".data) ++ ("a\" y".data)
      = ("x ".data) ++ preguntaKeyMarker ++ ([':', ' '] : Str)
        ++ '"' :: (("Hola".data) ++ '"' :: (" y".data)) := by decide
  have hex : extractLatestPregunta (("x \"Pregunta\": \"Hol".data) ++ ("a\" y".data))
      = ("Hola".data) := by
    rw [hshape]
    exact h.2.2 ("x ".data) ([':', ' ']) ("Hola".data) (" y".data)
      (by decide) (by decide) (by decide) (by decide)
  have hflat : ([("x \"Pregunta\": \"Hol".data), ("a\" y".data)].take 2).flatten
      = ("x \"Pregunta\": \"Hol".data) ++ ("a\" y".data) := by decide
  refine ⟨hex, ?_⟩
  have hpre := h.2.1 (by decide)
  rw [show extractLatestPregunta
        (([("x \"Pregunta\": \"Hol".data), ("a\" y".data)].take 2).flatten)
      = ("Hola".data) from by decide] at hpre
  rw [show [("x \"Pregunta\": \"Hol".data), ("a\" y".data)].take 2
      = [("x \"Pregunta\": \"Hol".data), ("a\" y".data)] from by decide] at hpre
  exact hpre

theorem geminiLoopIterations_unfold_lt (env : GenEnv) (attempts : Nat) (lastRaw : Str)
    (lastErr : Option Str) (h : attempts < MAX_JSON_CORRECTION_ATTEMPTS) :
    geminiLoopIterations env attempts lastRaw lastErr =
      match iterStep env attempts lastRaw lastErr with
      | .inl _ => 1
      | .inr f => 1 + geminiLoopIterations env (attempts + 1) f.1 (some f.2) := by
  conv_lhs => unfold geminiLoopIterations
  rw [dif_pos h]

theorem geminiLoopIterations_unfold_ge (env : GenEnv) (attempts : Nat) (lastRaw : Str)
    (lastErr : Option Str) (h : ¬(attempts < MAX_JSON_CORRECTION_ATTEMPTS)) :
    geminiLoopIterations env attempts lastRaw lastErr = 0 := by
  conv_lhs => unfold geminiLoopIterations
  rw [dif_neg h]

theorem geminiLoopIterations_le (env : GenEnv) :
    ∀ (n attempts : Nat) (lastRaw : Str) (lastErr : Option Str),
      MAX_JSON_CORRECTION_ATTEMPTS - attempts ≤ n →
      geminiLoopIterations env attempts lastRaw lastErr
        ≤ MAX_JSON_CORRECTION_ATTEMPTS - attempts := by
  have hM : MAX_JSON_CORRECTION_ATTEMPTS = 5 := rfl
  intro n
  induction n with
  | zero =>
    intro attempts lastRaw lastErr hle
    rw [geminiLoopIterations_unfold_ge env attempts lastRaw lastErr (by omega)]
    omega
  | succ n ih =>
    intro attempts lastRaw lastErr hle
    by_cases h : attempts < MAX_JSON_CORRECTION_ATTEMPTS
    · rw [geminiLoopIterations_unfold_lt env attempts lastRaw lastErr h]
      cases hstep : iterStep env attempts lastRaw lastErr with
      | inl pr =>
        dsimp only
        rw [hM] at h ⊢
        omega
      | inr f =>
        dsimp only
        have h2 := ih (attempts + 1) f.1 (some f.2) (by rw [hM] at hle ⊢; omega)
        rw [hM] at h h2 ⊢
        refine le_trans (Nat.add_le_add_left h2 1) ?_
        omega
    · rw [geminiLoopIterations_unfold_ge env attempts lastRaw lastErr h]
      omega

theorem scanToQuoteSteps_le (s : Str) : scanToQuoteSteps s ≤ s.length := by
  induction s with
  | nil => simp [scanToQuoteSteps]
  | cons c rest ih =>
    simp only [scanToQuoteSteps, List.length_cons]
    split
    · omega
    · split
      · omega
      · omega

theorem takeJsonValueSteps_le : ∀ (s : Str) (esc : Bool), takeJsonValueSteps s esc ≤ s.length := by
  intro s
  induction s with
  | nil => intro esc; simp [takeJsonValueSteps]
  | cons c rest ih =>
    intro esc
    cases esc with
    | true =>
      simp only [takeJsonValueSteps, List.length_cons]
      have := ih false
      omega
    | false =>
      simp only [takeJsonValueSteps, List.length_cons]
      split
      · have := ih true
        omega
      · split
        · omega
        · have := ih false
          omega

/-- C4: both control loops terminate.  The JSON-correction loop executes
at most MAX_JSON_CORRECTION_ATTEMPTS iterations from counter value
`attempts` (the counter increases by one on every iteration, including
the empty-response branch, so the remaining budget bounds the iteration
count), and each manual scanning pass of the "Pregunta" extractor (the
valueStart search and the value scan) performs at most one step per
character of the text region it scans. -/
theorem control_loops_terminate :
    (∀ (env : GenEnv) (attempts : Nat) (lastRaw : Str) (lastErr : Option Str),
        geminiLoopIterations env attempts lastRaw lastErr
          ≤ MAX_JSON_CORRECTION_ATTEMPTS - attempts)
    ∧ (∀ s : Str, scanToQuoteSteps s ≤ s.length)
    ∧ (∀ (s : Str) (esc : Bool), takeJsonValueSteps s esc ≤ s.length) := by
  refine ⟨?_, scanToQuoteSteps_le, takeJsonValueSteps_le⟩
  intro env attempts lastRaw lastErr
  exact geminiLoopIterations_le env (MAX_JSON_CORRECTION_ATTEMPTS - attempts)
    attempts lastRaw lastErr le_rfl

theorem requestAttemptLoop_two (o : RequestOracle) (gq : List QuestionData) (att : Nat)
    (lastErr : Option Str) (totalJson : Nat) :
    requestAttemptLoop o gq 2 att lastErr totalJson =
      match o att lastErr with
      | .ok (qs, jAtt) =>
        ReqResult.mk (mergeQuestions gq qs) RequestStatus.Completed none jAtt qs.length
      | .error e =>
        if att = MAX_OVERALL_REQUEST_ATTEMPTS - 1 then
          ReqResult.mk gq RequestStatus.Error (some e) totalJson 0
        else requestAttemptLoop o gq 1 (att + 1) (some e) totalJson := rfl

theorem requestAttemptLoop_one (o : RequestOracle) (gq : List QuestionData) (att : Nat)
    (lastErr : Option Str) (totalJson : Nat) :
    requestAttemptLoop o gq 1 att lastErr totalJson =
      match o att lastErr with
      | .ok (qs, jAtt) =>
        ReqResult.mk (mergeQuestions gq qs) RequestStatus.Completed none jAtt qs.length
      | .error e =>
        if att = MAX_OVERALL_REQUEST_ATTEMPTS - 1 then
          ReqResult.mk gq RequestStatus.Error (some e) totalJson 0
        else requestAttemptLoop o gq 0 (att + 1) (some e) totalJson := rfl

theorem processOneRequest_ok0 (o : RequestOracle) (gq qs : List QuestionData) (j : Nat)
    (h0 : o 0 none = Except.ok (qs, j)) :
    processOneRequest o gq
      = ReqResult.mk (mergeQuestions gq qs) RequestStatus.Completed none j qs.length := by
  show requestAttemptLoop o gq 2 0 none 0 = _
  rw [requestAttemptLoop_two, h0]

theorem processOneRequest_ok1 (o : RequestOracle) (gq qs : List QuestionData) (e0 : Str)
    (j : Nat) (h0 : o 0 none = Except.error e0) (h1 : o 1 (some e0) = Except.ok (qs, j)) :
    processOneRequest o gq
      = ReqResult.mk (mergeQuestions gq qs) RequestStatus.Completed none j qs.length := by
  show requestAttemptLoop o gq 2 0 none 0 = _
  rw [requestAttemptLoop_two, h0]
  dsimp only
  rw [if_neg (by decide)]
  have h1b : o (0 + 1) (some e0) = Except.ok (qs, j) := h1
  rw [requestAttemptLoop_one, h1b]

theorem processOneRequest_fail2 (o : RequestOracle) (gq : List QuestionData) (e0 e1 : Str)
    (h0 : o 0 none = Except.error e0) (h1 : o 1 (some e0) = Except.error e1) :
    processOneRequest o gq = ReqResult.mk gq RequestStatus.Error (some e1) 0 0 := by
  show requestAttemptLoop o gq 2 0 none 0 = _
  rw [requestAttemptLoop_two, h0]
  dsimp only
  rw [if_neg (by decide)]
  have h1b : o (0 + 1) (some e0) = Except.error e1 := h1
  rw [requestAttemptLoop_one, h1b]
  dsimp only
  rw [if_pos (by decide)]

/-- C2: for every queued request, at most MAX_OVERALL_REQUEST_ATTEMPTS
(2) overall generation attempts are consulted (the outcome depends only
on the oracle below attempt index 2); a successful attempt completes the
request with the merged batch, no further attempts being made; and when
every attempt throws, the request ends in Error status with the last
error message stored in errorDetails. -/
theorem processQueue_overall_attempts (gq : List QuestionData) :
    (∀ o o2 : RequestOracle,
        (∀ (a : Nat) (e : Option Str), a < MAX_OVERALL_REQUEST_ATTEMPTS → o a e = o2 a e) →
        processOneRequest o gq = processOneRequest o2 gq)
    ∧ (∀ (o : RequestOracle) (qs : List QuestionData) (j : Nat),
        o 0 none = Except.ok (qs, j) →
        processOneRequest o gq
          = ReqResult.mk (mergeQuestions gq qs) RequestStatus.Completed none j qs.length)
    ∧ (∀ (o : RequestOracle) (e0 : Str) (qs : List QuestionData) (j : Nat),
        o 0 none = Except.error e0 → o 1 (some e0) = Except.ok (qs, j) →
        processOneRequest o gq
          = ReqResult.mk (mergeQuestions gq qs) RequestStatus.Completed none j qs.length)
    ∧ (∀ (o : RequestOracle) (e0 e1 : Str),
        o 0 none = Except.error e0 → o 1 (some e0) = Except.error e1 →
        processOneRequest o gq
          = ReqResult.mk gq RequestStatus.Error (some e1) 0 0) := by
  refine ⟨?_, fun o qs j h0 => processOneRequest_ok0 o gq qs j h0,
    fun o e0 qs j h0 h1 => processOneRequest_ok1 o gq qs e0 j h0 h1,
    fun o e0 e1 h0 h1 => processOneRequest_fail2 o gq e0 e1 h0 h1⟩
  intro o o2 hagree
  have h0b : o2 0 none = o 0 none := (hagree 0 none (by decide)).symm
  cases h0 : o 0 none with
  | ok pr =>
    rw [processOneRequest_ok0 o gq pr.1 pr.2 h0,
      processOneRequest_ok0 o2 gq pr.1 pr.2 (by rw [h0b, h0])]
  | error e0 =>
    have h1b : o2 1 (some e0) = o 1 (some e0) := (hagree 1 (some e0) (by decide)).symm
    cases h1 : o 1 (some e0) with
    | ok pr =>
      rw [processOneRequest_ok1 o gq pr.1 e0 pr.2 h0 h1,
        processOneRequest_ok1 o2 gq pr.1 e0 pr.2 (by rw [h0b, h0]) (by rw [h1b, h1])]
    | error e1 =>
      rw [processOneRequest_fail2 o gq e0 e1 h0 h1,
        processOneRequest_fail2 o2 gq e0 e1 (by rw [h0b, h0]) (by rw [h1b, h1])]

/-- Witness for C2: with both attempts failing, the request ends in
Error with the last message and zeroed counters. -/
theorem processQueue_overall_attempts_witness :
    processOneRequest
        (fun a _ => if a = 0 then Except.error ("boom0".data) else Except.error ("boom1".data))
        []
      = ReqResult.mk [] RequestStatus.Error (some ("boom1".data)) 0 0 := by
  exact (processQueue_overall_attempts []).2.2.2
    (fun a _ => if a = 0 then Except.error ("boom0".data) else Except.error ("boom1".data))
    ("boom0".data) ("boom1".data) rfl rfl

/-- C5: a request whose overall attempts all fail leaves the accumulated
questions list unchanged; in general the attempts loop either leaves the
list unchanged or replaces it with the merge of a successful attempt\x27s
batch, so questions are added or rewritten only on success. -/
theorem failed_request_keeps_questions (gq : List QuestionData) :
    (∀ (o : RequestOracle) (e0 e1 : Str),
        o 0 none = Except.error e0 → o 1 (some e0) = Except.error e1 →
        (processOneRequest o gq).gq = gq)
    ∧ (∀ o : RequestOracle,
        (processOneRequest o gq).gq = gq
        ∨ ∃ qs : List QuestionData, (processOneRequest o gq).gq = mergeQuestions gq qs) := by
  constructor
  · intro o e0 e1 h0 h1
    rw [processOneRequest_fail2 o gq e0 e1 h0 h1]
  · intro o
    cases h0 : o 0 none with
    | ok pr =>
      right
      exact ⟨pr.1, by rw [processOneRequest_ok0 o gq pr.1 pr.2 h0]⟩
    | error e0 =>
      cases h1 : o 1 (some e0) with
      | ok pr =>
        right
        exact ⟨pr.1, by rw [processOneRequest_ok1 o gq pr.1 e0 pr.2 h0 h1]⟩
      | error e1 =>
        left
        rw [processOneRequest_fail2 o gq e0 e1 h0 h1]

/-- Witness for C5: both attempts fail and the questions list survives
untouched. -/
theorem failed_request_keeps_questions_witness :
    (processOneRequest (fun _ _ => Except.error ("x".data))
        [QuestionData.mk ("q1".data) ("P".data) ("C".data) none none none none none none]).gq
      = [QuestionData.mk ("q1".data) ("P".data) ("C".data) none none none none none none] := by
  exact (failed_request_keeps_questions
      [QuestionData.mk ("q1".data) ("P".data) ("C".data) none none none none none none]).1
    (fun _ _ => Except.error ("x".data)) ("x".data) ("x".data) rfl rfl

theorem mergeFold_extra (pids : List Str) (l : List QuestionData) :
    ∀ acc : List QuestionData, ∃ extra : List QuestionData,
      l.foldl
        (fun acc nq =>
          if nq.id ∈ pids then acc
          else if acc.any (fun uq => decide (uq.id = nq.id)) then acc
          else acc ++ [nq]) acc
        = acc ++ extra := by
  induction l with
  | nil => intro acc; exact ⟨[], by simp⟩
  | cons nq rest ih =>
    intro acc
    simp only [List.foldl_cons]
    by_cases h1 : nq.id ∈ pids
    · rw [if_pos h1]
      exact ih acc
    · rw [if_neg h1]
      by_cases h2 : acc.any (fun uq => decide (uq.id = nq.id))
      · rw [if_pos h2]
        exact ih acc
      · rw [if_neg h2]
        obtain ⟨extra, hex⟩ := ih (acc ++ [nq])
        exact ⟨nq :: extra, by rw [hex]; simp⟩

theorem mergeFold_nodup (pids : List Str) (l : List QuestionData) :
    ∀ acc : List QuestionData, (acc.map QuestionData.id).Nodup →
      ((l.foldl
        (fun acc nq =>
          if nq.id ∈ pids then acc
          else if acc.any (fun uq => decide (uq.id = nq.id)) then acc
          else acc ++ [nq]) acc).map QuestionData.id).Nodup := by
  induction l with
  | nil => intro acc h; simpa using h
  | cons nq rest ih =>
    intro acc h
    simp only [List.foldl_cons]
    by_cases h1 : nq.id ∈ pids
    · rw [if_pos h1]
      exact ih acc h
    · rw [if_neg h1]
      by_cases h2 : acc.any (fun uq => decide (uq.id = nq.id))
      · rw [if_pos h2]
        exact ih acc h
      · rw [if_neg h2]
        refine ih (acc ++ [nq]) ?_
        rw [List.map_append]
        rw [List.nodup_append]
        refine ⟨h, List.nodup_singleton _, ?_⟩
        intro x hx
        simp only [List.map_singleton, List.mem_singleton]
        intro hxe
        subst hxe
        rw [List.any_eq_true] at h2
        obtain ⟨uq, hq, hid⟩ := List.mem_map.mp hx
        exact h2 ⟨uq, hq, by simp [hid]⟩

theorem mergeQuestions_updated_ids (prev newQs : List QuestionData) :
    (prev.map (fun q => ((newQs.find? (fun nq => decide (nq.id = q.id))).getD q))).map
        QuestionData.id
      = prev.map QuestionData.id := by
  rw [List.map_map]
  apply List.map_congr_left
  intro q hq
  show ((newQs.find? (fun nq => decide (nq.id = q.id))).getD q).id = q.id
  cases hf : newQs.find? (fun nq => decide (nq.id = q.id)) with
  | none => rfl
  | some nq =>
    have := List.find?_some hf
    simp only [decide_eq_true_eq] at this
    simpa using this

/-- C10: merging a successful batch into the generated-questions list
leaves every pre-existing question whose id is not among the batch ids
unchanged at its position; replaces a pre-existing question whose id is
matched by the (first) batch question of the same id; and only appends a
batch question when its id is not already present, so the merge never
introduces a duplicate id that was not already there (a Nodup id list
stays Nodup). -/
theorem mergeQuestions_frame (prev newQs : List QuestionData) :
    (prev.length ≤ (mergeQuestions prev newQs).length)
    ∧ (∀ (i : Nat) (h : i < prev.length),
        (prev.get ⟨i, h⟩).id ∉ newQs.map QuestionData.id →
        (mergeQuestions prev newQs)[i]? = some (prev.get ⟨i, h⟩))
    ∧ (∀ (i : Nat) (h : i < prev.length) (nq : QuestionData),
        newQs.find? (fun n => decide (n.id = (prev.get ⟨i, h⟩).id)) = some nq →
        (mergeQuestions prev newQs)[i]? = some nq)
    ∧ ((prev.map QuestionData.id).Nodup →
        ((mergeQuestions prev newQs).map QuestionData.id).Nodup) := by
  have hexists : ∃ extra : List QuestionData, mergeQuestions prev newQs
      = (prev.map (fun q => ((newQs.find? (fun nq => decide (nq.id = q.id))).getD q))) ++ extra := by
    unfold mergeQuestions
    exact mergeFold_extra _ newQs _
  obtain ⟨extra, hmerge⟩ := hexists
  have hlen : prev.length ≤ (mergeQuestions prev newQs).length := by
    rw [hmerge]
    simp
  refine ⟨hlen, ?_, ?_, ?_⟩
  · intro i h hnot
    have hfind : newQs.find? (fun nq => decide (nq.id = (prev.get ⟨i, h⟩).id)) = none := by
      rw [List.find?_eq_none]
      intro nq hnq
      simp only [decide_eq_true_eq]
      intro heq
      exact hnot (List.mem_map.mpr ⟨nq, hnq, heq⟩)
    rw [hmerge]
    rw [List.getElem?_append_left (by simp [h])]
    rw [List.getElem?_map]
    rw [List.getElem?_eq_getElem h]
    simp only [Option.map_some']
    rw [show prev[i] = prev.get ⟨i, h⟩ from rfl, hfind]
    rfl
  · intro i h nq hfind
    rw [hmerge]
    rw [List.getElem?_append_left (by simp [h])]
    rw [List.getElem?_map]
    rw [List.getElem?_eq_getElem h]
    simp only [Option.map_some']
    rw [show prev[i] = prev.get ⟨i, h⟩ from rfl, hfind]
    rfl
  · intro hnd
    unfold mergeQuestions
    apply mergeFold_nodup
    rw [mergeQuestions_updated_ids]
    exact hnd

/-- Witness for C10: a batch with one rewritten id and one new id merged
into a two-question list keeps the untouched question in place, replaces
the matched one, and appends the new one without duplicating ids. -/
theorem mergeQuestions_frame_witness :
    (mergeQuestions
        [QuestionData.mk ("a".data) ("P1".data) ("C1".data) none none none none none none,
         QuestionData.mk ("b".data) ("P2".data) ("C2".data) none none none none none none]
        [QuestionData.mk ("b".data) ("P2x".data) ("C2x".data) none none none none none none,
         QuestionData.mk ("c".data) ("P3".data) ("C3".data) none none none none none none])[0]?
      = some (QuestionData.mk ("a".data) ("P1".data) ("C1".data) none none none none none none)
    ∧ (mergeQuestions
        [QuestionData.mk ("a".data) ("P1".data) ("C1".data) none none none none none none,
         QuestionData.mk ("b".data) ("P2".data) ("C2".data) none none none none none none]
        [QuestionData.mk ("b".data) ("P2x".data) ("C2x".data) none none none none none none,
         QuestionData.mk ("c".data) ("P3".data) ("C3".data) none none none none none none])[1]?
      = some (QuestionData.mk ("b".data) ("P2x".data) ("C2x".data) none none none none none none)
    ∧ ((mergeQuestions
        [QuestionData.mk ("a".data) ("P1".data) ("C1".data) none none none none none none,
         QuestionData.mk ("b".data) ("P2".data) ("C2".data) none none none none none none]
        [QuestionData.mk ("b".data) ("P2x".data) ("C2x".data) none none none none none none,
         QuestionData.mk ("c".data) ("P3".data) ("C3".data) none none none none none none]).map
        QuestionData.id).Nodup := by
  have h := mergeQuestions_frame
    [QuestionData.mk ("a".data) ("P1".data) ("C1".data) none none none none none none,
     QuestionData.mk ("b".data) ("P2".data) ("C2".data) none none none none none none]
    [QuestionData.mk ("b".data) ("P2x".data) ("C2x".data) none none none none none none,
     QuestionData.mk ("c".data) ("P3".data) ("C3".data) none none none none none none]
  exact ⟨h.2.1 0 (by decide) (by decide), h.2.2.1 1 (by decide) _ (by decide),
    h.2.2.2 (by decide)⟩

theorem processOneRequest_status (o : RequestOracle) (gq : List QuestionData) :
    (processOneRequest o gq).status = RequestStatus.Completed
    ∨ (processOneRequest o gq).status = RequestStatus.Error := by
  cases h0 : o 0 none with
  | ok pr =>
    left
    rw [processOneRequest_ok0 o gq pr.1 pr.2 (by rw [h0])]
  | error e0 =>
    cases h1 : o 1 (some e0) with
    | ok pr =>
      left
      rw [processOneRequest_ok1 o gq pr.1 e0 pr.2 h0 (by rw [h1])]
    | error e1 =>
      right
      rw [processOneRequest_fail2 o gq e0 e1 h0 h1]

theorem applyStart_ids (reqs : List GenerationRequest) (rid : Str) :
    (applyStart reqs rid).map GenerationRequest.id = reqs.map GenerationRequest.id := by
  unfold applyStart
  rw [List.map_map]
  apply List.map_congr_left
  intro r _
  by_cases h : r.id = rid <;> simp [h]

theorem applyFinish_ids (reqs : List GenerationRequest) (rid : Str) (res : ReqResult) :
    (applyFinish reqs rid res).map GenerationRequest.id = reqs.map GenerationRequest.id := by
  unfold applyFinish
  rw [List.map_map]
  apply List.map_congr_left
  intro r _
  by_cases h : r.id = rid <;> simp [h]

theorem countP_id_le_one (reqs : List GenerationRequest) (rid : Str)
    (hnd : (reqs.map GenerationRequest.id).Nodup) :
    reqs.countP (fun r => decide (r.id = rid)) ≤ 1 := by
  induction reqs with
  | nil => simp
  | cons r rest ih =>
    rw [List.map_cons, List.nodup_cons] at hnd
    rw [List.countP_cons]
    by_cases h : r.id = rid
    · have hz : rest.countP (fun r => decide (r.id = rid)) = 0 := by
        rw [List.countP_eq_zero]
        intro q hq
        simp only [decide_eq_true_eq]
        intro heq
        exact hnd.1 (List.mem_map.mpr ⟨q, hq, by rw [heq, h]⟩)
      simp [h, hz]
    · have := ih hnd.2
      simp only [h, decide_eq_true_eq]
      simp [h]
      omega

theorem applyStart_procCount (reqs : List GenerationRequest) (rid : Str)
    (hnd : (reqs.map GenerationRequest.id).Nodup)
    (hnp : ∀ r ∈ reqs, r.status ≠ RequestStatus.Processing) :
    ((applyStart reqs rid).filter
      (fun r => decide (r.status = RequestStatus.Processing))).length ≤ 1 := by
  rw [← List.countP_eq_length_filter]
  unfold applyStart
  rw [List.countP_map]
  refine le_trans (List.countP_mono_left (q := fun r => decide (r.id = rid)) ?_) ?_
  · intro r hr hp
    simp only [Function.comp] at hp
    by_cases h : r.id = rid
    · simp [h]
    · simp only [if_neg h, decide_eq_true_eq] at hp
      exact absurd hp (hnp r hr)
  · exact countP_id_le_one reqs rid hnd

theorem applyStart_nonmatch (reqs : List GenerationRequest) (rid : Str) :
    ∀ r ∈ applyStart reqs rid, ¬(r.id = rid) → r ∈ reqs := by
  intro r hr hne
  obtain ⟨r0, hr0, rfl⟩ := List.mem_map.mp hr
  by_cases h : r0.id = rid
  · simp only [if_pos h] at hne
    exact absurd h hne
  · simpa [if_neg h] using hr0

theorem applyFinish_noproc (reqs : List GenerationRequest) (rid : Str) (res : ReqResult)
    (hres : ¬(res.status = RequestStatus.Processing))
    (hnp : ∀ r ∈ reqs, ¬(r.id = rid) → ¬(r.status = RequestStatus.Processing)) :
    ∀ r ∈ applyFinish reqs rid res, ¬(r.status = RequestStatus.Processing) := by
  intro r hr
  obtain ⟨r0, hr0, rfl⟩ := List.mem_map.mp hr
  by_cases h : r0.id = rid
  · simp only [if_pos h]
    exact hres
  · simp only [if_neg h]
    exact hnp r0 hr0 h

theorem applyFinish_matches (reqs : List GenerationRequest) (rid : Str) (res : ReqResult) :
    ∀ r ∈ applyFinish reqs rid res, r.id = rid → r.status = res.status := by
  intro r hr heq
  obtain ⟨r0, hr0, rfl⟩ := List.mem_map.mp hr
  by_cases h : r0.id = rid
  · simp [if_pos h]
  · simp only [if_neg h] at heq
    exact absurd heq h

theorem runQueue_cons (o : Nat → RequestOracle) (i : Nat)
    (reqs : List GenerationRequest) (gq : List QuestionData)
    (p : GenerationRequest) (rest : List GenerationRequest) :
    runQueue o i reqs gq (p :: rest)
      = ((applyStart reqs p.id)
          :: (applyFinish (applyStart reqs p.id) p.id (processOneRequest (o i) gq))
          :: (runQueue o (i + 1)
               (applyFinish (applyStart reqs p.id) p.id (processOneRequest (o i) gq))
               (processOneRequest (o i) gq).gq rest).1,
         (runQueue o (i + 1)
            (applyFinish (applyStart reqs p.id) p.id (processOneRequest (o i) gq))
            (processOneRequest (o i) gq).gq rest).2) := rfl

theorem runQueue_props (o : Nat → RequestOracle) :
    ∀ (pend : List GenerationRequest) (i : Nat) (reqs : List GenerationRequest)
      (gq : List QuestionData),
      (reqs.map GenerationRequest.id).Nodup →
      (∀ r ∈ reqs, ¬(r.status = RequestStatus.Processing)) →
      (pend.map GenerationRequest.id).Nodup →
      ((runQueue o i reqs gq pend).1.length = 2 * pend.length)
      ∧ (∀ s ∈ (runQueue o i reqs gq pend).1,
          (s.filter (fun r => decide (r.status = RequestStatus.Processing))).length ≤ 1)
      ∧ (∀ (j : Nat) (p0 : GenerationRequest) (s : List GenerationRequest),
          pend[j]? = some p0 → j + 1 < pend.length →
          (runQueue o i reqs gq pend).1[2 * j + 2]? = some s →
          ∀ r ∈ s, r.id = p0.id →
          r.status = RequestStatus.Completed ∨ r.status = RequestStatus.Error) := by
  intro pend
  induction pend with
  | nil =>
    intro i reqs gq hnd hnp hpnd
    refine ⟨rfl, ?_, ?_⟩
    · intro s hs
      simp [runQueue] at hs
    · intro j p0 s hp0 hj1
      simp at hj1
  | cons p rest ih =>
    intro i reqs gq hnd hnp hpnd
    have hresfinal : ¬((processOneRequest (o i) gq).status = RequestStatus.Processing) := by
      rcases processOneRequest_status (o i) gq with h | h <;> rw [h] <;> simp
    have hs2nd : ((applyFinish (applyStart reqs p.id) p.id
        (processOneRequest (o i) gq)).map GenerationRequest.id).Nodup := by
      rw [applyFinish_ids, applyStart_ids]
      exact hnd
    have hs2np : ∀ r ∈ applyFinish (applyStart reqs p.id) p.id (processOneRequest (o i) gq),
        ¬(r.status = RequestStatus.Processing) := by
      apply applyFinish_noproc _ _ _ hresfinal
      intro r hr hne
      exact hnp r (applyStart_nonmatch reqs p.id r hr hne)
    have hrestnd : (rest.map GenerationRequest.id).Nodup := by
      rw [List.map_cons, List.nodup_cons] at hpnd
      exact hpnd.2
    have IH := ih (i + 1) (applyFinish (applyStart reqs p.id) p.id (processOneRequest (o i) gq))
      (processOneRequest (o i) gq).gq hs2nd hs2np hrestnd
    rw [runQueue_cons]
    refine ⟨?_, ?_, ?_⟩
    · simp only [List.length_cons, IH.1, List.length_cons]
      omega
    · intro s hs
      rcases List.mem_cons.mp hs with rfl | hs2
      · exact applyStart_procCount reqs p.id hnd hnp
      · rcases List.mem_cons.mp hs2 with rfl | hs3
        · rw [← List.countP_eq_length_filter, List.countP_eq_zero.mpr]
          · omega
          · intro r hr
            simp only [decide_eq_true_eq]
            exact hs2np r hr
        · exact IH.2.1 s hs3
    · intro j p0 s hp0 hj1 hsnap r hr hid
      cases j with
      | zero =>
        rw [List.getElem?_cons_zero] at hp0
        injection hp0 with hp0e
        subst hp0e
        cases rest with
        | nil => simp at hj1
        | cons q rest2 =>
          rw [show 2 * 0 + 2 = 0 + 1 + 1 from rfl] at hsnap
          rw [List.getElem?_cons_succ, List.getElem?_cons_succ] at hsnap
          rw [runQueue_cons] at hsnap
          rw [List.getElem?_cons_zero] at hsnap
          injection hsnap with hse
          subst hse
          have hpq : ¬(p.id = q.id) := by
            rw [List.map_cons, List.nodup_cons] at hpnd
            intro h
            apply hpnd.1
            rw [List.map_cons, h]
            exact List.mem_cons_self q.id (rest2.map GenerationRequest.id)
          have hrs2 : r ∈ applyFinish (applyStart reqs p.id) p.id (processOneRequest (o i) gq) := by
            apply applyStart_nonmatch _ q.id r hr
            rw [hid]
            exact hpq
          have := applyFinish_matches _ p.id (processOneRequest (o i) gq) r hrs2 hid
          rw [this]
          exact processOneRequest_status (o i) gq
      | succ j2 =>
        rw [List.getElem?_cons_succ] at hp0
        rw [show 2 * (j2 + 1) + 2 = (2 * j2 + 2) + 1 + 1 from by omega] at hsnap
        rw [List.getElem?_cons_succ, List.getElem?_cons_succ] at hsnap
        exact IH.2.2 j2 p0 s hp0 (by simp at hj1; omega) hsnap r hr hid

/-- C6: processQueue handles the pending-or-error requests strictly one
at a time in queue order.  Over the snapshots of the requests state (one
per setRequests call): at most one request is ever in Processing status
(given unique ids and no stale Processing request), the trace has exactly
two snapshots per selected request, and in the snapshot where the
(i+1)-th selected request is set Processing the i-th selected request
already has a final status (Completed or Error), so generation for
request i+1 never begins before request i finished. -/
theorem processQueue_sequential (o : Nat → RequestOracle)
    (reqs : List GenerationRequest) (gq : List QuestionData)
    (hnd : (reqs.map GenerationRequest.id).Nodup)
    (hnp : ∀ r ∈ reqs, ¬(r.status = RequestStatus.Processing)) :
    (∀ s ∈ processQueueTrace o reqs gq,
        (s.filter (fun r => decide (r.status = RequestStatus.Processing))).length ≤ 1)
    ∧ ((processQueueTrace o reqs gq).length = 2 * (selectedRequests reqs).length)
    ∧ (∀ (j : Nat) (p0 : GenerationRequest) (s : List GenerationRequest),
        (selectedRequests reqs)[j]? = some p0 → j + 1 < (selectedRequests reqs).length →
        (processQueueTrace o reqs gq)[2 * j + 2]? = some s →
        ∀ r ∈ s, r.id = p0.id →
        r.status = RequestStatus.Completed ∨ r.status = RequestStatus.Error) := by
  have hsub : List.Sublist ((selectedRequests reqs).map GenerationRequest.id)
      (reqs.map GenerationRequest.id) :=
    (List.filter_sublist reqs).map GenerationRequest.id
  have hselnd : ((selectedRequests reqs).map GenerationRequest.id).Nodup := hsub.nodup hnd
  have h := runQueue_props o (selectedRequests reqs) 0 reqs gq hnd hnp hselnd
  exact ⟨h.2.1, h.1, h.2.2⟩

/-- Witness for C6: two pending requests with a failing oracle; in the
snapshot where the second request turns Processing, the first already has
its final (Error) status. -/
theorem processQueue_sequential_witness :
    (GenerationRequest.mk ("r1".data) ("p1".data) RequestStatus.Error (some ("boom".data)) 0 0).status
        = RequestStatus.Completed
    ∨ (GenerationRequest.mk ("r1".data) ("p1".data) RequestStatus.Error (some ("boom".data)) 0 0).status
        = RequestStatus.Error := by
  exact (processQueue_sequential (fun _ _ _ => Except.error ("boom".data))
      [GenerationRequest.mk ("r1".data) ("p1".data) RequestStatus.Pending none 0 0,
       GenerationRequest.mk ("r2".data) ("p2".data) RequestStatus.Pending none 0 0]
      [] (by decide) (by decide)).2.2
    0
    (GenerationRequest.mk ("r1".data) ("p1".data) RequestStatus.Pending none 0 0)
    [GenerationRequest.mk ("r1".data) ("p1".data) RequestStatus.Error (some ("boom".data)) 0 0,
     GenerationRequest.mk ("r2".data) ("p2".data) RequestStatus.Processing none 0 0]
    (by decide) (by decide) (by decide)
    (GenerationRequest.mk ("r1".data) ("p1".data) RequestStatus.Error (some ("boom".data)) 0 0)
    (by decide) (by decide)
